/-
  Verification development for the Guest/Stay Identity Resolution &
  Lifecycle Synchronization Engine of the NanabBot hotel-concierge service.

  The Python source is shallowly embedded: the relational store becomes an
  explicit record of row lists (`DB`), SQLAlchemy queries become list
  searches, timestamps become integers (seconds), and every modelled
  function is a pure state transformer translated clause by clause from
  the corresponding Python function (source file and line ranges are cited
  on each definition).
-/
import Mathlib

namespace Hotelbot

/-- `StayStatus` enum from `app/models/models.py`. -/
inductive StayStatus where
  | PRE_STAY
  | IN_HOUSE
  | POST_STAY
  | CANCELLED
  deriving DecidableEq, Repr

/-- `JourneyEventStatus` enum from `app/models/models.py`. -/
inductive JourneyEventStatus where
  | PENDING
  | SENT
  | CANCELLED
  deriving DecidableEq, Repr

/-- `TaskType` enum from `app/models/models.py`. -/
inductive TaskType where
  | HOUSEKEEPING
  | MAINTENANCE
  | LOST_AND_FOUND
  | FOOD_BEVERAGE
  | OTHER
  deriving DecidableEq, Repr

/-- `TaskStatus` enum from `app/models/models.py`. -/
inductive TaskStatus where
  | OPEN
  | IN_PROGRESS
  | DONE
  | CANCELLED
  deriving DecidableEq, Repr

/-- `ConversationStatus` enum from `app/models/models.py`. -/
inductive ConversationStatus where
  | OPEN
  | ASSIGNED_TO_STAFF
  | CLOSED
  deriving DecidableEq, Repr

/-- `MessageDirection` enum from `app/models/models.py`. -/
inductive MessageDirection where
  | INCOMING
  | OUTGOING
  deriving DecidableEq, Repr

/-!  ## Phone-number normalization (`app/services/identity_resolver.py`, lines 24-48)

The variant machinery is defined on `List Char` and lifted to `String`. -/

/-- `if digits.startswith("00"): digits = digits[2:]` (identity_resolver.py line 31). -/
def stripDoubleZero (d : List Char) : List Char :=
  match d with
  | '0' :: '0' :: rest => rest
  | _ => d

/-- `if digits.startswith("0") and len(digits) > 1: variants.add(digits[1:])`
(identity_resolver.py lines 35-36). -/
def dropLeadingZero (d : List Char) : List (List Char) :=
  match d with
  | '0' :: c :: rest => [c :: rest]
  | _ => []

/-- `if digits.startswith("40") and len(digits) > 2: variants.add("0" + digits[2:])`
(identity_resolver.py lines 38-39). -/
def intlToLocal (d : List Char) : List (List Char) :=
  match d with
  | '4' :: '0' :: c :: rest => ['0' :: c :: rest]
  | _ => []

/-- `phone_variants` (identity_resolver.py lines 24-40) on character lists.
The Python function returns a set; the list below has the same members
(its elements are pairwise distinct because their lengths differ). -/
def phone_variants_chars (raw : List Char) : List (List Char) :=
  let digits := raw.filter Char.isDigit
  if digits = [] then []
  else
    let d := stripDoubleZero digits
    (d :: (dropLeadingZero d ++ intlToLocal d)).filter (fun v => decide (v ≠ []))

/-- `phone_variants` (identity_resolver.py lines 24-40). -/
def phone_variants (raw : String) : List String :=
  (phone_variants_chars raw.data).map (fun l => String.mk l)

/-- `canonical_phone` (identity_resolver.py lines 43-48): the longest variant.
Variant lengths are pairwise distinct, so the maximum is unique and the fold
agrees with Python's `sorted(variants, key=len, reverse=True)[0]`. -/
def canonical_phone (raw : String) : Option String :=
  match phone_variants raw with
  | [] => none
  | v :: vs => some (vs.foldl (fun a b => if a.length < b.length then b else a) v)

/-- `hashlib.sha256(v.encode()).hexdigest()`, modelled as an injective encoding:
the digest is represented by the digested string itself.  The embedded code
only ever compares digests for equality, so any injective deterministic
function is a faithful model of the hash. -/
def sha256_hexdigest (s : String) : String := s

example : phone_variants "+40 0721 000 111" = ["400721000111", "00721000111"] := by decide

example : phone_variants "40721000111" = ["40721000111", "0721000111"] := by decide

example : phone_variants "0721000111" = ["0721000111", "721000111"] := by decide

example : canonical_phone "40721000111" = some "40721000111" := by decide

example : phone_variants "00" = [] := by decide

/-!  ## Data model (`app/models/models.py`)

Rows are records; timestamps are integers (seconds); nullable columns and
fields the Python code guards with truthiness checks are `Option`s. -/

/-- `Hotel` row (models.py lines 74-123), restricted to the columns the
embedded functions read.  `qrTokens` models the keys of
`settings["qr_tokens"]`; `bilingualWelcome` models
`settings.get("bilingual_welcome", False)`. -/
structure Hotel where
  id : Nat
  name : String
  isActive : Bool
  subscriptionTier : String
  staffLanguage : Option String
  interfaceLanguage : String
  qrTokens : List String
  bilingualWelcome : Bool
  deriving DecidableEq, Repr

/-- `Guest` row (models.py lines 125-144). -/
structure Guest where
  id : Nat
  hotelId : Nat
  phoneHash : String
  preferredLanguage : Option String
  deriving DecidableEq, Repr

/-- `GuestPII` row (models.py lines 147-156). -/
structure GuestPII where
  guestId : Nat
  fullName : Option String
  phonePlain : Option String
  emailPlain : Option String
  deriving DecidableEq, Repr

/-- `Room` row (models.py lines 159-171). -/
structure Room where
  id : Nat
  hotelId : Nat
  roomNumber : String
  isActive : Bool
  deriving DecidableEq, Repr

/-- `Stay` row (models.py lines 174-196).  The date and status columns are
`Option`s because `determine_state` (identity_resolver.py lines 83-95)
guards each of them against `None` before use. -/
structure Stay where
  id : Nat
  hotelId : Nat
  guestId : Nat
  roomId : Option Nat
  checkinDate : Option Int
  checkoutDate : Option Int
  status : Option StayStatus
  whatsappOptIn : Bool
  channel : Option String
  pmsReservationId : Option String
  deriving DecidableEq, Repr

/-- `Conversation` row (models.py lines 199-224). -/
structure Conversation where
  id : Nat
  hotelId : Nat
  guestId : Nat
  stayId : Option Nat
  roomId : Option Nat
  channel : String
  status : ConversationStatus
  currentHandler : String
  lastQrScanAt : Option Int
  createdAt : Int
  updatedAt : Int
  deriving DecidableEq, Repr

/-- `Message` row (models.py lines 226-237).  `rawMessageId` models
`raw_payload_json["id"]`, the provider message id used for webhook dedup. -/
structure Message where
  id : Nat
  conversationId : Nat
  senderIsBot : Bool
  direction : MessageDirection
  text : String
  rawMessageId : Option String
  createdAt : Int
  deriving DecidableEq, Repr

/-- `Journey` row (models.py lines 358-370). -/
structure Journey where
  id : Nat
  hotelId : Nat
  name : String
  delayMinutes : Int
  isActive : Bool
  templateKey : String
  deriving DecidableEq, Repr

/-- `JourneyEvent` row (models.py lines 379-400). -/
structure JourneyEvent where
  id : Nat
  hotelId : Nat
  journeyId : Nat
  guestId : Nat
  stayId : Nat
  channel : String
  runAt : Int
  status : JourneyEventStatus
  deriving DecidableEq, Repr

/-- `Task` row (models.py lines 239-256). -/
structure Task where
  id : Nat
  hotelId : Nat
  stayId : Option Nat
  type : TaskType
  status : TaskStatus
  staffSummary : Option String
  priority : String
  createdAt : Int
  deriving DecidableEq, Repr

/-- The relational store: one list per table plus primary-key counters
(SQLAlchemy integer primary keys). -/
structure DB where
  hotels : List Hotel
  guests : List Guest
  piis : List GuestPII
  rooms : List Room
  stays : List Stay
  conversations : List Conversation
  messages : List Message
  journeys : List Journey
  events : List JourneyEvent
  tasks : List Task
  nextGuestId : Nat
  nextRoomId : Nat
  nextStayId : Nat
  nextConversationId : Nat
  nextMessageId : Nat
  nextEventId : Nat
  nextTaskId : Nat
  deriving DecidableEq, Repr

/-- Well-formedness of the store: primary keys are unique and below their
table's counter, and journey events reference allocated stay ids.  These
facts hold of every database produced by the application (integer primary
keys are allocated by an increasing sequence). -/
def DB.WF (db : DB) : Prop :=
  (db.hotels.map Hotel.id).Nodup ∧
  (db.guests.map Guest.id).Nodup ∧
  (db.piis.map GuestPII.guestId).Nodup ∧
  (db.rooms.map Room.id).Nodup ∧
  (db.stays.map Stay.id).Nodup ∧
  (db.conversations.map Conversation.id).Nodup ∧
  (db.events.map JourneyEvent.id).Nodup ∧
  (db.tasks.map Task.id).Nodup ∧
  (∀ g ∈ db.guests, g.id < db.nextGuestId) ∧
  (∀ r ∈ db.rooms, r.id < db.nextRoomId) ∧
  (∀ s ∈ db.stays, s.id < db.nextStayId) ∧
  (∀ c ∈ db.conversations, c.id < db.nextConversationId) ∧
  (∀ m ∈ db.messages, m.id < db.nextMessageId) ∧
  (∀ e ∈ db.events, e.id < db.nextEventId) ∧
  (∀ t ∈ db.tasks, t.id < db.nextTaskId) ∧
  (∀ e ∈ db.events, e.stayId < db.nextStayId) ∧
  (∀ r ∈ db.rooms, r.id ≠ 0) ∧ db.nextRoomId ≠ 0

instance (db : DB) : Decidable db.WF := by
  unfold DB.WF
  infer_instance

/-- Python truthiness of an optional string: `None` and `""` are falsy. -/
def strTruthy : Option String → Bool
  | none => false
  | some s => decide (s ≠ "")

/-- `settings.default_hotel_id` (`app/core/config.py` line 55). -/
def default_hotel_id : Nat := 1

/-- Python's `hotel_id or settings.default_hotel_id`: `None` and `0` fall
back to the default. -/
def pyOrDefaultHotel (hotelId : Option Nat) : Nat :=
  match hotelId with
  | none => default_hotel_id
  | some n => if n = 0 then default_hotel_id else n

/-!  ## Identity Resolver (`app/services/identity_resolver.py`) -/

/-- `IdentityContext` dataclass (identity_resolver.py lines 16-21). -/
structure IdentityContext where
  hotel : Hotel
  guest : Guest
  stay : Option Stay
  state : StayStatus
  deriving DecidableEq, Repr

/-- `_ensure_guest_pii` (identity_resolver.py lines 51-75): create the PII
row with the canonical phone, or fill in a missing phone, but never
overwrite a populated one. -/
def _ensure_guest_pii (db : DB) (guest : Guest) (phone : String) : DB :=
  if phone = "" then db
  else
    match canonical_phone phone with
    | none => db
    | some canonical =>
      match db.piis.find? (fun p => decide (p.guestId = guest.id)) with
      | some pii =>
        if strTruthy pii.phonePlain then db
        else
          { db with piis := db.piis.map (fun p =>
              if p.guestId = guest.id then { p with phonePlain := some canonical } else p) }
      | none =>
        { db with piis := db.piis ++
            [{ guestId := guest.id, fullName := none,
               phonePlain := some canonical, emailPlain := none }] }

/-- `_ensure_hotel` (identity_resolver.py lines 78-80). -/
def _ensure_hotel (db : DB) (hotelId : Nat) : Option Hotel :=
  db.hotels.find? (fun h => decide (h.id = hotelId))

/-- `determine_state` (identity_resolver.py lines 83-95). -/
def determine_state (stay? : Option Stay) (now : Int) : StayStatus :=
  match stay? with
  | none => .POST_STAY
  | some stay =>
    match stay.checkinDate, stay.checkoutDate with
    | some ci, some co =>
      if now < ci then .PRE_STAY
      else if ci ≤ now ∧ now < co then .IN_HOUSE
      else .POST_STAY
    | _, _ =>
      match stay.status with
      | some s => s
      | none => .POST_STAY

/-- The join of `_find_guest_globally` (identity_resolver.py lines 109-116):
all `(Guest, Hotel, Stay)` rows with `Guest.hotel_id == Hotel.id`,
`Stay.guest_id == Guest.id`, `Guest.phone_hash IN variant_hashes` and
`Stay.status == IN_HOUSE`. -/
def globalCandidates (db : DB) (variantHashes : List String) : List (Guest × Hotel × Stay) :=
  db.guests.flatMap (fun g =>
    db.hotels.flatMap (fun h =>
      db.stays.filterMap (fun s =>
        if g.hotelId = h.id ∧ s.guestId = g.id ∧
            g.phoneHash ∈ variantHashes ∧ s.status = some .IN_HOUSE
        then some (g, h, s) else none)))

/-- `ORDER BY checkin_date DESC`: `a` ranks strictly above `b`.  A `NULL`
date ranks first, matching PostgreSQL's `DESC NULLS FIRST` default. -/
def newerCheckin : Option Int → Option Int → Bool
  | none, none => false
  | none, some _ => true
  | some _, none => false
  | some a, some b => decide (b < a)

/-- `.order_by(Stay.checkin_date.desc()).first()` over joined candidates:
the earliest row with the greatest check-in date. -/
def pickMostRecent (l : List (Guest × Hotel × Stay)) : Option (Guest × Hotel × Stay) :=
  l.foldl (fun acc t =>
    match acc with
    | none => some t
    | some best => if newerCheckin t.2.2.checkinDate best.2.2.checkinDate then some t else some best)
    none

/-- `_find_guest_globally` (identity_resolver.py lines 98-122). -/
def _find_guest_globally (db : DB) (variantHashes : List String) :
    Option (Guest × Hotel × Stay) :=
  if variantHashes = [] then none
  else pickMostRecent (globalCandidates db variantHashes)

/-- `.order_by(Stay.checkin_date.desc()).first()` over a guest's stays
(identity_resolver.py lines 190-192). -/
def mostRecentStay (stays : List Stay) : Option Stay :=
  stays.foldl (fun acc s =>
    match acc with
    | none => some s
    | some best => if newerCheckin s.checkinDate best.checkinDate then some s else some best)
    none

/-- `resolve_identity` (identity_resolver.py lines 125-195).  Returns the
updated store and the resolved context (`None` when the hotel does not
exist).  The `IntegrityError` branch of guest creation is a concurrency
recovery path and cannot fire in this single-writer model. -/
def resolve_identity (db : DB) (waId : String) (hotelId? : Option Nat) (now : Int) :
    DB × Option IdentityContext :=
  let variantHashes := (phone_variants waId).map sha256_hexdigest
  let useGlobal := hotelId? = none ∨ hotelId? = some default_hotel_id
  let globalResult := if useGlobal then _find_guest_globally db variantHashes else none
  match globalResult with
  | some (g, h, s) =>
    (db, some { hotel := h, guest := g, stay := some s, state := determine_state (some s) now })
  | none =>
    match _ensure_hotel db (pyOrDefaultHotel hotelId?) with
    | none => (db, none)
    | some hotel =>
      let found :=
        if variantHashes = [] then none
        else db.guests.find? (fun g => decide (g.hotelId = hotel.id ∧ g.phoneHash ∈ variantHashes))
      let created :=
        match found with
        | some g => (db, g)
        | none =>
          let hashValue :=
            match canonical_phone waId with
            | some c => sha256_hexdigest c
            | none => sha256_hexdigest waId
          let g : Guest := { id := db.nextGuestId, hotelId := hotel.id,
                             phoneHash := hashValue, preferredLanguage := none }
          ({ db with guests := db.guests ++ [g], nextGuestId := db.nextGuestId + 1 }, g)
      let db1 := created.1
      let guest := created.2
      let db2 := _ensure_guest_pii db1 guest waId
      let stay? := mostRecentStay (db2.stays.filter (fun s => decide (s.guestId = guest.id)))
      (db2, some { hotel := hotel, guest := guest, stay := stay?, state := determine_state stay? now })

/-!  ## PMS Synchronization Engine (`app/services/pms/sync_engine.py`) -/

/-- `PMSReservation` dataclass (`app/services/pms/base.py` lines 22-38). -/
structure PMSReservation where
  reservationId : String
  guestName : String
  guestPhone : String
  guestEmail : Option String
  roomNumber : Option String
  checkinDate : Int
  checkoutDate : Int
  preferredLanguage : Option String
  deriving DecidableEq, Repr

/-- `_hash_phone` (sync_engine.py lines 45-49): digits only, then hash. -/
def _hash_phone (phone : String) : String :=
  sha256_hexdigest (String.mk (phone.data.filter Char.isDigit))

/-- `_get_or_create_guest` (sync_engine.py lines 52-80).  The
`IntegrityError` branch is concurrency recovery and cannot fire here. -/
def _get_or_create_guest (db : DB) (hotelId : Nat) (phone : String) : DB × Guest :=
  let phoneHash := _hash_phone phone
  match db.guests.find? (fun g => decide (g.hotelId = hotelId ∧ g.phoneHash = phoneHash)) with
  | some g => (db, g)
  | none =>
    let g : Guest := { id := db.nextGuestId, hotelId := hotelId,
                       phoneHash := phoneHash, preferredLanguage := none }
    ({ db with guests := db.guests ++ [g], nextGuestId := db.nextGuestId + 1 }, g)

/-- `_upsert_guest_pii` (sync_engine.py lines 83-108): PMS data always
overwrites name and phone; email only when provided. -/
def _upsert_guest_pii (db : DB) (guest : Guest) (name phone : String) (email : Option String) :
    DB :=
  match db.piis.find? (fun p => decide (p.guestId = guest.id)) with
  | none =>
    { db with piis := db.piis ++
        [{ guestId := guest.id, fullName := some name,
           phonePlain := some phone, emailPlain := email }] }
  | some _ =>
    { db with piis := db.piis.map (fun p =>
        if p.guestId = guest.id then
          { p with fullName := some name, phonePlain := some phone,
                   emailPlain := if strTruthy email then email else p.emailPlain }
        else p) }

/-- `_get_or_create_room` (sync_engine.py lines 111-137). -/
def _get_or_create_room (db : DB) (hotelId : Nat) (roomNumber : Option String) :
    DB × Option Nat :=
  match roomNumber with
  | none => (db, none)
  | some rn =>
    if rn = "" then (db, none)
    else
      match db.rooms.find? (fun r => decide (r.hotelId = hotelId ∧ r.roomNumber = rn)) with
      | some r => (db, some r.id)
      | none =>
        let r : Room := { id := db.nextRoomId, hotelId := hotelId,
                          roomNumber := rn, isActive := true }
        ({ db with rooms := db.rooms ++ [r], nextRoomId := db.nextRoomId + 1 }, some r.id)

/-- `_close_previous_stays` (sync_engine.py lines 140-191): close the
guest's own IN_HOUSE stays, then (when a room id is given — Python
truthiness, so id `0` counts as absent) other guests' IN_HOUSE stays in
that room. -/
def _close_previous_stays (db : DB) (guestId : Nat) (roomId : Option Nat) : DB :=
  let afterGuest := db.stays.map (fun s =>
    if s.guestId = guestId ∧ s.status = some .IN_HOUSE
    then { s with status := some .POST_STAY } else s)
  let afterRoom :=
    match roomId with
    | none => afterGuest
    | some rid =>
      if rid = 0 then afterGuest
      else afterGuest.map (fun s =>
        if s.roomId = some rid ∧ s.status = some .IN_HOUSE ∧ s.guestId ≠ guestId
        then { s with status := some .POST_STAY } else s)
  { db with stays := afterRoom }

/-- Steps 1-3 of `_handle_checkin` (sync_engine.py lines 205-224): resolve
or create the guest, upsert the PII record, update the guest's language
preference when the reservation carries one and the guest has none. -/
def checkinGuestSteps (db : DB) (hotelId : Nat) (r : PMSReservation) : DB × Guest :=
  let res1 := _get_or_create_guest db hotelId r.guestPhone
  let db1 := res1.1
  let guest := res1.2
  let db2 := _upsert_guest_pii db1 guest r.guestName r.guestPhone r.guestEmail
  let db3 :=
    if strTruthy r.preferredLanguage ∧ ¬ strTruthy guest.preferredLanguage then
      { db2 with guests := db2.guests.map (fun g =>
          if g.id = guest.id then { g with preferredLanguage := r.preferredLanguage } else g) }
    else db2
  (db3, guest)

/-- Steps 7-8 of `_handle_checkin` (sync_engine.py lines 259-319): create
the new IN_HOUSE stay and, when an active welcome journey exists with no
PENDING/SENT event for (journey, stay), schedule one at now + delay. -/
def checkinStayCreate (db5 : DB) (hotelId : Nat) (guestId : Nat) (roomId : Option Nat)
    (r : PMSReservation) (now : Int) : DB :=
  let stay : Stay := { id := db5.nextStayId, hotelId := hotelId, guestId := guestId,
                       roomId := roomId, checkinDate := some r.checkinDate,
                       checkoutDate := some r.checkoutDate, status := some .IN_HOUSE,
                       whatsappOptIn := true, channel := some "pms",
                       pmsReservationId := some r.reservationId }
  let db6 := { db5 with stays := db5.stays ++ [stay], nextStayId := db5.nextStayId + 1 }
  match db6.journeys.find? (fun j => decide (j.hotelId = hotelId ∧
      j.name = "AFTER_CHECKIN_WELCOME" ∧ j.isActive = true)) with
  | none => db6
  | some journey =>
    match db6.events.find? (fun e => decide (e.stayId = stay.id ∧ e.journeyId = journey.id ∧
        (e.status = .PENDING ∨ e.status = .SENT))) with
    | some _ => db6
    | none =>
      let ev : JourneyEvent := { id := db6.nextEventId, hotelId := hotelId,
                                 journeyId := journey.id, guestId := guestId,
                                 stayId := stay.id, channel := "whatsapp",
                                 runAt := now + journey.delayMinutes * 60,
                                 status := .PENDING }
      { db6 with events := db6.events ++ [ev], nextEventId := db6.nextEventId + 1 }

/-- `_handle_checkin` (sync_engine.py lines 194-332).  The `SyncStats`
counters and log lines are omitted; the `except` wrapper only handles
external failures, which cannot arise in this pure model.  On the update
path the code forces `status = IN_HOUSE` (conditionally on it differing,
which has the same net effect) and rewrites room and dates. -/
def _handle_checkin (db : DB) (hotelId : Nat) (r : PMSReservation) (now : Int) : DB :=
  let resG := checkinGuestSteps db hotelId r
  let db3 := resG.1
  let guest := resG.2
  let res4 := _get_or_create_room db3 hotelId r.roomNumber
  let db4 := res4.1
  let roomId := res4.2
  match db4.stays.find? (fun s => decide (s.hotelId = hotelId ∧ s.guestId = guest.id ∧
      s.pmsReservationId = some r.reservationId)) with
  | some existing =>
    { db4 with stays := db4.stays.map (fun s =>
        if s.id = existing.id then
          { s with status := some .IN_HOUSE, roomId := roomId,
                   checkinDate := some r.checkinDate, checkoutDate := some r.checkoutDate }
        else s) }
  | none =>
    let db5 := _close_previous_stays db4 guest.id roomId
    checkinStayCreate db5 hotelId guest.id roomId r now

/-!  ## Journey Scheduler (`app/workers/jobs_journey.py`)

External effects are abstracted into an oracle: `sendOk`/`followupOk` give
the provider's success result for an event's sends (an exception during a
send has the same status effect as a failed send), and `renderText` gives
the rendered outbound text (templates and LLM text generation are outside
the verified logic). -/

/-- Python truthiness of an optional integer id: `None` and `0` are falsy. -/
def natIdTruthy : Option Nat → Bool
  | none => false
  | some n => decide (n ≠ 0)

/-- Oracle for the external effects of one scheduler cycle. -/
structure DispatchOracle where
  sendOk : Nat → Bool
  followupOk : Nat → Bool
  renderText : Nat → String

/-- Write a journey event's status (`event.status = ...; db.add; db.commit`). -/
def setEventStatus (db : DB) (eventId : Nat) (st : JourneyEventStatus) : DB :=
  { db with events := db.events.map (fun e =>
      if e.id = eventId then { e with status := st } else e) }

/-- `_get_wa_id` (jobs_journey.py lines 30-32): the guest's plain phone. -/
def _get_wa_id (db : DB) (ev : JourneyEvent) : Option String :=
  match db.guests.find? (fun g => decide (g.id = ev.guestId)) with
  | none => none
  | some _ =>
    match db.piis.find? (fun p => decide (p.guestId = ev.guestId)) with
    | none => none
    | some pii => pii.phonePlain

/-- `.order_by(Conversation.created_at.desc()).first()`. -/
def latestCreatedConv (l : List Conversation) : Option Conversation :=
  l.foldl (fun acc c =>
    match acc with
    | none => some c
    | some best => if best.createdAt < c.createdAt then some c else some best)
    none

/-- The conversation lookup/create/repoint block of `process_pending_journeys`
(jobs_journey.py lines 94-128). -/
def journeyConversation (db : DB) (ev : JourneyEvent) (stay : Stay) (now : Int) :
    DB × Conversation :=
  let found := latestCreatedConv (db.conversations.filter (fun c =>
    decide (c.hotelId = ev.hotelId ∧ c.guestId = ev.guestId ∧
            c.channel = "whatsapp" ∧ c.status = .OPEN)))
  match found with
  | none =>
    let c : Conversation := { id := db.nextConversationId, hotelId := ev.hotelId,
                              guestId := ev.guestId, stayId := some ev.stayId, roomId := none,
                              channel := "whatsapp", status := .OPEN, currentHandler := "BOT",
                              lastQrScanAt := none, createdAt := now, updatedAt := now }
    ({ db with conversations := db.conversations ++ [c],
               nextConversationId := db.nextConversationId + 1 }, c)
  | some conv =>
    if conv.stayId ≠ some ev.stayId then
      let updated := { conv with
        stayId := some ev.stayId,
        roomId := if natIdTruthy stay.roomId then stay.roomId else conv.roomId,
        updatedAt := now }
      ({ db with conversations := db.conversations.map (fun c =>
          if c.id = conv.id then updated else c) }, updated)
    else (db, conv)

/-- `stay.room.room_number or ""` (jobs_journey.py lines 136-139). -/
def roomNumberOf (db : DB) (stay : Stay) : String :=
  match stay.roomId with
  | none => ""
  | some rid =>
    match db.rooms.find? (fun r => decide (r.id = rid)) with
    | none => ""
    | some room => room.roomNumber

/-- `hotel.staff_language or hotel.interface_language or "en"`. -/
def hotelLangOf (hotel : Hotel) : String :=
  let iface := if hotel.interfaceLanguage = "" then "en" else hotel.interfaceLanguage
  match hotel.staffLanguage with
  | some l => if l = "" then iface else l
  | none => iface

/-- The outbound-message writes of the dispatch body (jobs_journey.py
lines 181-273): record the bot message (before the send), and, when the
bilingual welcome follow-up is sent, record it too.  `db1` is the store
after conversation handling; the send results come from the oracle. -/
def dispatchMessageWrites (now : Int) (o : DispatchOracle) (db1 : DB) (ev : JourneyEvent)
    (conv : Conversation) (stay : Stay) (hotel : Hotel) : DB :=
  let text := o.renderText ev.id
  let journey? := db1.journeys.find? (fun j => decide (j.id = ev.journeyId))
  let isWelcome :=
    match journey? with
    | some j => decide (j.templateKey = "welcome_after_checkin")
    | none => false
  let isWhatsapp := decide (conv.channel = "whatsapp")
  let roomNumber := roomNumberOf db1 stay
  let langCode := if hotelLangOf hotel = "ro" then "ro" else "en_US"
  let dbText :=
    if isWelcome && isWhatsapp then
      "Welcome message sent (" ++ hotel.name ++ ", room " ++ roomNumber ++ ")"
    else text
  let botMsg : Message := { id := db1.nextMessageId, conversationId := conv.id,
                            senderIsBot := true, direction := .OUTGOING, text := dbText,
                            rawMessageId := none, createdAt := now }
  let db2 := { db1 with messages := db1.messages ++ [botMsg],
                        nextMessageId := db1.nextMessageId + 1 }
  let success := o.sendOk ev.id
  let followupMsg : Message := { id := db2.nextMessageId, conversationId := conv.id,
                                 senderIsBot := true, direction := .OUTGOING,
                                 text := "[Template: welcome_guest, lang: en]",
                                 rawMessageId := none, createdAt := now }
  if isWelcome && isWhatsapp && success && hotel.bilingualWelcome &&
      decide (langCode = "ro") then
    if o.followupOk ev.id then
      { db2 with messages := db2.messages ++ [followupMsg],
                 nextMessageId := db2.nextMessageId + 1 }
    else db2
  else db2

/-- The body of the dispatch loop of `process_pending_journeys`
(jobs_journey.py lines 67-302) for one due pending event.  Returns the new
store and whether an outbound send was attempted for this event.  Status
outcomes, in source order: missing stay → CANCELLED; derived state not
IN_HOUSE → left PENDING ("keep pending to retry later"); opted out →
CANCELLED; no phone on file → CANCELLED; identical recent outgoing message
→ SENT without sending; hotel missing → left PENDING; send success → SENT;
send failure or exception → CANCELLED. -/
def processEvent (now : Int) (o : DispatchOracle) (db : DB) (ev : JourneyEvent) : DB × Bool :=
  match db.stays.find? (fun s => decide (s.id = ev.stayId)) with
  | none => (setEventStatus db ev.id .CANCELLED, false)
  | some stay =>
    if determine_state (some stay) now ≠ .IN_HOUSE then (db, false)
    else if stay.whatsappOptIn = false then (setEventStatus db ev.id .CANCELLED, false)
    else if ¬ strTruthy (_get_wa_id db ev) then (setEventStatus db ev.id .CANCELLED, false)
    else
      let res := journeyConversation db ev stay now
      let db1 := res.1
      let conv := res.2
      let hotel? := db1.hotels.find? (fun h => decide (h.id = ev.hotelId))
      let text := o.renderText ev.id
      if db1.messages.any (fun m => decide (m.conversationId = conv.id ∧
          m.direction = .OUTGOING ∧ m.text = text ∧ now - 300 ≤ m.createdAt)) then
        (setEventStatus db1 ev.id .SENT, false)
      else
        match hotel? with
        | none => (db1, false)
        | some hotel =>
          let db3 := dispatchMessageWrites now o db1 ev conv stay hotel
          if o.sendOk ev.id then (setEventStatus db3 ev.id .SENT, true)
          else (setEventStatus db3 ev.id .CANCELLED, true)

/-- The staleness pass of `process_pending_journeys` (jobs_journey.py lines
40-55): every PENDING event scheduled at or before `now - 30min` is
CANCELLED, and this commits before dispatch. -/
def staleCancelPass (db : DB) (now : Int) : DB :=
  { db with events := db.events.map (fun e =>
      if e.status = .PENDING ∧ e.runAt ≤ now - 1800 then { e with status := .CANCELLED } else e) }

/-- The dispatch loop over the snapshot of due pending events, accumulating
the ids of events for which a send was attempted. -/
def dispatchLoop (now : Int) (o : DispatchOracle) : DB → List JourneyEvent → DB × List Nat
  | db, [] => (db, [])
  | db, ev :: rest =>
    let r := processEvent now o db ev
    let tail := dispatchLoop now o r.1 rest
    (tail.1, (if r.2 then [ev.id] else []) ++ tail.2)

/-- `process_pending_journeys` (jobs_journey.py lines 35-306): staleness
pass first, then dispatch over the fresh due pending events. -/
def process_pending_journeys (db : DB) (now : Int) (o : DispatchOracle) : DB × List Nat :=
  let db1 := staleCancelPass db now
  let due := db1.events.filter (fun e => decide (e.status = .PENDING ∧ e.runAt ≤ now))
  dispatchLoop now o db1 due

/-!  ## Task Dedup Gate (`app/agent/brain.py`, `_create_task`) -/

/-- The dedup-and-insert tail of `_create_task` (brain.py lines 843-871),
applied after the summary post-processing: look for a task of the same
type and identical summary created within the trailing 60-second window
for the same tenant; if found return it, otherwise insert a new OPEN task. -/
def _create_task (db : DB) (hotelId : Nat) (taskType : TaskType) (summary : String)
    (priority : String) (stayId : Option Nat) (now : Int) : DB × Task :=
  match db.tasks.find? (fun t => decide (t.hotelId = hotelId ∧ t.type = taskType ∧
      now - 60 ≤ t.createdAt ∧ t.staffSummary = some summary)) with
  | some existing => (db, existing)
  | none =>
    let task : Task := { id := db.nextTaskId, hotelId := hotelId, stayId := stayId,
                         type := taskType, status := .OPEN, staffSummary := some summary,
                         priority := priority, createdAt := now }
    ({ db with tasks := db.tasks ++ [task], nextTaskId := db.nextTaskId + 1 }, task)

/-!  ## WhatsApp room-code linking (`app/workers/jobs.py`,
`_handle_whatsapp_room_linking`, lines 376-503)

The regex parse of the message text is represented by its result: for a QR
scan `"Connect Room <n> #<tenant> !<token>"` the fields below hold the
captured groups; for plain 1-4 digit text only `roomNumber` is set. -/

/-- Parse result of the room-link message text (jobs.py lines 398-417). -/
structure ParsedWaText where
  roomNumber : Option String
  hotelIdInText : Option Nat
  tokenInText : Option String
  isQrScan : Bool
  deriving DecidableEq, Repr

/-- `_handle_whatsapp_room_linking` (jobs.py lines 376-503).  Returns the
new store and the handler's boolean (`True` = handled, stop processing).
The guest-visible sends are external.  Note that the token is validated
against the registry of the **conversation's** hotel, while the room is
linked under the tenant id embedded in the message text. -/
def _handle_whatsapp_room_linking (db : DB) (conv : Conversation) (p : ParsedWaText)
    (now : Int) : DB × Bool :=
  match db.hotels.find? (fun h => decide (h.id = conv.hotelId)) with
  | none => (db, false)
  | some hotel =>
    if hotel.subscriptionTier = "pro" then (db, false)
    else
      match p.roomNumber with
      | none =>
        if natIdTruthy conv.roomId then (db, false)
        else (db, true)
      | some rn =>
        if ¬ p.isQrScan ∧ natIdTruthy conv.roomId then (db, false)
        else
          let tokenOk :=
            match p.tokenInText with
            | none => false
            | some tok => decide (tok ≠ "" ∧ tok ∈ hotel.qrTokens)
          if p.isQrScan ∧ hotel.qrTokens ≠ [] ∧ tokenOk = false then (db, true)
          else
            let target :=
              match p.hotelIdInText with
              | some h => h
              | none => conv.hotelId
            let roomRes :=
              match db.rooms.find? (fun room =>
                  decide (room.hotelId = target ∧ room.roomNumber = rn)) with
              | some room => (db, room)
              | none =>
                let room : Room := { id := db.nextRoomId, hotelId := target,
                                     roomNumber := rn, isActive := true }
                ({ db with rooms := db.rooms ++ [room], nextRoomId := db.nextRoomId + 1 }, room)
            let db1 := roomRes.1
            let room := roomRes.2
            let db2 := { db1 with conversations := db1.conversations.map (fun c =>
                if c.id = conv.id then
                  { c with roomId := some room.id, lastQrScanAt := some now, updatedAt := now }
                else c) }
            (db2, true)

/-!  ## Occupancy invariant (spec.md section 3, `Stay`) -/

/-- At most one IN_HOUSE stay per guest and at most one IN_HOUSE stay per
room (a stay without a room constrains no room). -/
def inhouseInvariant (db : DB) : Prop :=
  ∀ a ∈ db.stays, ∀ b ∈ db.stays, a.id ≠ b.id →
    a.status = some .IN_HOUSE → b.status = some .IN_HOUSE →
    a.guestId ≠ b.guestId ∧ (a.roomId = none ∨ a.roomId ≠ b.roomId)

instance (db : DB) : Decidable (inhouseInvariant db) := by
  unfold inhouseInvariant
  infer_instance

/-!  ## Concrete fixtures for witnesses and counterexamples -/

/-- An empty store with all id counters at 1. -/
def emptyDB : DB :=
  { hotels := [], guests := [], piis := [], rooms := [], stays := [], conversations := [],
    messages := [], journeys := [], events := [], tasks := [], nextGuestId := 1,
    nextRoomId := 1, nextStayId := 1, nextConversationId := 1, nextMessageId := 1,
    nextEventId := 1, nextTaskId := 1 }

/-- A stay with both dates present (interval 50-200). -/
def cStay10 : Stay :=
  { id := 1, hotelId := 1, guestId := 1, roomId := none, checkinDate := some 50,
    checkoutDate := some 200, status := some .PRE_STAY, whatsappOptIn := true,
    channel := none, pmsReservationId := none }

/-- A guest whose PII phone is already populated. -/
def cGuest9 : Guest :=
  { id := 1, hotelId := 1, phoneHash := "40721000111", preferredLanguage := none }

/-- The populated PII row of `cGuest9`. -/
def cPii9 : GuestPII :=
  { guestId := 1, fullName := some "Ana", phonePlain := some "40721000111",
    emailPlain := none }

/-- Store holding `cGuest9` with populated PII. -/
def cdb9 : DB :=
  { emptyDB with guests := [cGuest9], piis := [cPii9], nextGuestId := 2 }

/-- The OPEN task row `_create_task` inserts (abbreviation for proofs). -/
def mkOpenTask (i h : Nat) (stayId : Option Nat) (ty : TaskType)
    (summary priority : String) (t : Int) : Task :=
  { id := i, hotelId := h, stayId := stayId, type := ty, status := .OPEN,
    staffSummary := some summary, priority := priority, createdAt := t }

/-- The PII row `_upsert_guest_pii` writes on the update path
(abbreviation for proofs). -/
def pmsUpdatedPii (p : GuestPII) (name phone : String) (email : Option String) : GuestPII :=
  { p with fullName := some name, phonePlain := some phone,
           emailPlain := if strTruthy email then email else p.emailPlain }

/-- The default tenant. -/
def cHotel1 : Hotel :=
  { id := 1, name := "Hotel One", isActive := true, subscriptionTier := "basic",
    staffLanguage := none, interfaceLanguage := "en", qrTokens := [],
    bilingualWelcome := false }

/-- A second, non-default tenant. -/
def cHotel2 : Hotel := { cHotel1 with id := 2, name := "Hotel Two" }

/-- Guest of the default tenant stored under the hash of the canonical
international number. -/
def cGuest3 : Guest :=
  { id := 1, hotelId := 1, phoneHash := "40721000111", preferredLanguage := none }

/-- Store for the C3 counterexample: one tenant, one guest stored under
the canonical hash, no stays. -/
def cdb3 : DB := { emptyDB with hotels := [cHotel1], guests := [cGuest3], nextGuestId := 2 }

/-- Guest of the non-default tenant stored under the canonical hash. -/
def cGuest3b : Guest :=
  { id := 3, hotelId := 2, phoneHash := "40721000111", preferredLanguage := none }

/-- Store for the C3 witness: the guest lives in the non-default tenant. -/
def cdb3b : DB :=
  { emptyDB with hotels := [cHotel2], guests := [cGuest3b], nextGuestId := 4 }

/-- A dispatch oracle whose sends always succeed. -/
def cOracle : DispatchOracle :=
  { sendOk := fun _ => true, followupOk := fun _ => true, renderText := fun _ => "Hello" }

/-- A stale PENDING journey event (scheduled at 0, observed at 3600). -/
def cEvent5 : JourneyEvent :=
  { id := 7, hotelId := 1, journeyId := 1, guestId := 1, stayId := 1,
    channel := "whatsapp", runAt := 0, status := .PENDING }

/-- Store for the C5 witness: a single stale PENDING event. -/
def cdb5 : DB := { emptyDB with events := [cEvent5], nextEventId := 8, nextStayId := 2 }

/-- A due, fresh PENDING event (scheduled at its observation time 1000). -/
def cEvent6 : JourneyEvent :=
  { id := 7, hotelId := 1, journeyId := 1, guestId := 1, stayId := 1,
    channel := "whatsapp", runAt := 1000, status := .PENDING }

/-- A stay whose interval (5000, 9000) lies in the future of time 1000, so
its derived state is PRE_STAY. -/
def cStay6 : Stay :=
  { id := 1, hotelId := 1, guestId := 1, roomId := none, checkinDate := some 5000,
    checkoutDate := some 9000, status := some .IN_HOUSE, whatsappOptIn := true,
    channel := some "pms", pmsReservationId := some "R1" }

/-- Store for the C6 counterexample: a due PENDING event whose stay is not
yet IN_HOUSE and whose guest has not opted out. -/
def cdb6 : DB :=
  { emptyDB with hotels := [cHotel1], guests := [cGuest3], stays := [cStay6],
                 events := [cEvent6], nextGuestId := 2, nextStayId := 2, nextEventId := 8 }

/-- A stay that is currently IN_HOUSE at time 1000 but opted out. -/
def cStay6b : Stay := { cStay6 with checkinDate := some 500, whatsappOptIn := false }

/-- Store for the C6 witness: a due PENDING event whose stay is IN_HOUSE
but whose guest opted out of the channel. -/
def cdb6b : DB := { cdb6 with stays := [cStay6b] }

/-- Guest of tenant 2 stored under the local variant's hash. -/
def cGuest4 : Guest :=
  { id := 2, hotelId := 2, phoneHash := "0721000111", preferredLanguage := none }

/-- IN_HOUSE stay of the tenant-1 guest, checked in at 100. -/
def cStay4a : Stay :=
  { id := 1, hotelId := 1, guestId := 1, roomId := none, checkinDate := some 100,
    checkoutDate := some 1000000, status := some .IN_HOUSE, whatsappOptIn := true,
    channel := some "pms", pmsReservationId := some "A1" }

/-- IN_HOUSE stay of the tenant-2 guest, checked in later, at 200. -/
def cStay4b : Stay :=
  { id := 2, hotelId := 2, guestId := 2, roomId := none, checkinDate := some 200,
    checkoutDate := some 1000000, status := some .IN_HOUSE, whatsappOptIn := true,
    channel := some "pms", pmsReservationId := some "B1" }

/-- Store for the C4 witness: two tenants share the guest's phone-hash
variants; both have an IN_HOUSE stay; tenant 2's started more recently. -/
def cdb4 : DB :=
  { emptyDB with hotels := [cHotel1, cHotel2], guests := [cGuest3, cGuest4],
                 stays := [cStay4a, cStay4b], nextGuestId := 3, nextStayId := 3 }

/-- Free-tier tenant 1 with no registered room-code tokens. -/
def cHotelFree : Hotel :=
  { id := 1, name := "Hotel Free", isActive := true, subscriptionTier := "free",
    staffLanguage := none, interfaceLanguage := "en", qrTokens := [],
    bilingualWelcome := false }

/-- Tenant 2 with a registered room-code token. -/
def cHotelTok : Hotel :=
  { id := 2, name := "Hotel Tok", isActive := true, subscriptionTier := "basic",
    staffLanguage := none, interfaceLanguage := "en", qrTokens := ["ab12"],
    bilingualWelcome := false }

/-- A conversation of tenant 1 with no linked room. -/
def cConv8 : Conversation :=
  { id := 1, hotelId := 1, guestId := 1, stayId := none, roomId := none,
    channel := "whatsapp", status := .OPEN, currentHandler := "BOT",
    lastQrScanAt := none, createdAt := 0, updatedAt := 0 }

/-- Store for the C8 failing input. -/
def cdb8 : DB :=
  { emptyDB with hotels := [cHotelFree, cHotelTok], conversations := [cConv8],
                 nextConversationId := 2 }

/-- Parse result of the message `Connect Room 5 #2 !dead`: a QR-scan
room-link carrying tenant id 2 and the token `dead`. -/
def cParsed8 : ParsedWaText :=
  { roomNumber := some "5", hotelIdInText := some 2, tokenInText := some "dead",
    isQrScan := true }

/-- Reservation for the C1 witness. -/
def c1r : PMSReservation :=
  { reservationId := "R9", guestName := "Ana", guestPhone := "+40721000111",
    guestEmail := none, roomNumber := some "101", checkinDate := 0, checkoutDate := 86400,
    preferredLanguage := none }

/-- Guest on file for the C2 states. -/
def c2Guest : Guest :=
  { id := 1, hotelId := 1, phoneHash := "40721000111", preferredLanguage := none }

/-- An open IN_HOUSE stay of that guest (reservation `R1`). -/
def c2StayA : Stay :=
  { id := 1, hotelId := 1, guestId := 1, roomId := some 7, checkinDate := some 0,
    checkoutDate := some 86400, status := some .IN_HOUSE, whatsappOptIn := true,
    channel := some "pms", pmsReservationId := some "R1" }

/-- A closed POST_STAY stay of the same guest (reservation `R2`). -/
def c2StayB : Stay :=
  { id := 2, hotelId := 1, guestId := 1, roomId := some 8, checkinDate := some 0,
    checkoutDate := some 43200, status := some .POST_STAY, whatsappOptIn := true,
    channel := some "pms", pmsReservationId := some "R2" }

/-- Store for the C2 counterexample: one guest with an open stay (`R1`) and a
closed one (`R2`). -/
def c2db : DB :=
  { emptyDB with guests := [c2Guest], stays := [c2StayA, c2StayB], nextGuestId := 2,
                 nextStayId := 3 }

/-- A PMS payload re-reporting the closed reservation `R2` as in-house. -/
def c2r : PMSReservation :=
  { reservationId := "R2", guestName := "Ana", guestPhone := "+40721000111",
    guestEmail := none, roomNumber := none, checkinDate := 0, checkoutDate := 86400,
    preferredLanguage := none }

/-- Store for the C2 witness: one guest with a single open stay. -/
def c2wdb : DB :=
  { emptyDB with guests := [c2Guest], stays := [c2StayA], nextGuestId := 2,
                 nextStayId := 2 }

/-- A PMS check-in payload for a new reservation `R3` of the same guest. -/
def c2wr : PMSReservation :=
  { reservationId := "R3", guestName := "Ana", guestPhone := "+40721000111",
    guestEmail := none, roomNumber := some "5", checkinDate := 100, checkoutDate := 86400,
    preferredLanguage := none }

/-!  ## Generic list lemmas used throughout -/

theorem find?_append_left {α : Type} {l l' : List α} {p : α → Bool} {x : α}
    (h : l.find? p = some x) : (l ++ l').find? p = some x := by
  induction l with
  | nil => simp at h
  | cons a t ih =>
    rw [List.find?_cons] at h
    rw [List.cons_append, List.find?_cons]
    cases hp : p a with
    | true => simpa [hp] using h
    | false =>
      rw [hp] at h
      simpa [hp] using ih h

theorem find?_append_right {α : Type} {l l' : List α} {p : α → Bool}
    (h : l.find? p = none) : (l ++ l').find? p = l'.find? p := by
  induction l with
  | nil => simp
  | cons a t ih =>
    rw [List.find?_cons] at h
    cases hp : p a with
    | true => rw [hp] at h; simp at h
    | false =>
      rw [hp] at h
      rw [List.cons_append, List.find?_cons, hp]
      exact ih h

theorem find?_map_inv {α : Type} {l : List α} {p : α → Bool} {f : α → α}
    (hinv : ∀ x, p (f x) = p x) : (l.map f).find? p = (l.find? p).map f := by
  induction l with
  | nil => simp
  | cons a t ih =>
    rw [List.map_cons, List.find?_cons, List.find?_cons, hinv a]
    cases hp : p a with
    | true => simp
    | false => simpa using ih

theorem filter_map_inv {α : Type} {l : List α} {p : α → Bool} {f : α → α}
    (hinv : ∀ x, p (f x) = p x) : (l.map f).filter p = (l.filter p).map f := by
  induction l with
  | nil => simp
  | cons a t ih =>
    rw [List.map_cons, List.filter_cons, List.filter_cons, hinv a]
    cases hp : p a with
    | true => simpa using ih
    | false => simpa using ih

theorem find?_eq_some_of_unique {α : Type} {l : List α} {p : α → Bool} {x : α}
    (hmem : x ∈ l) (hx : p x = true) (huniq : ∀ y ∈ l, p y = true → y = x) :
    l.find? p = some x := by
  induction l with
  | nil => simp at hmem
  | cons a t ih =>
    rw [List.find?_cons]
    cases hp : p a with
    | true =>
      have : a = x := huniq a (List.mem_cons_self a t) hp
      rw [this]
    | false =>
      rcases List.mem_cons.mp hmem with h | h
      · rw [h] at hx; simp [hx] at hp
      · simpa [hp] using ih h (fun y hy hpy => huniq y (List.mem_cons_of_mem a hy) hpy)

/-!  ## C10 — `determine_state` is total over optional stays -/

/-- C10: `determine_state` returns POST_STAY for a missing stay; with both
dates present the state is derived solely from the current time (PRE_STAY
before check-in, IN_HOUSE inside the interval, POST_STAY after); with a
missing date it falls back to the stored status, and to POST_STAY when
that is missing too. -/
theorem c10_determine_state_total (stay : Stay) (now : Int) :
    (determine_state none now = .POST_STAY) ∧
    (∀ ci co, stay.checkinDate = some ci → stay.checkoutDate = some co →
      ((now < ci → determine_state (some stay) now = .PRE_STAY) ∧
       (ci ≤ now → now < co → determine_state (some stay) now = .IN_HOUSE) ∧
       (ci ≤ now → co ≤ now → determine_state (some stay) now = .POST_STAY))) ∧
    ((stay.checkinDate = none ∨ stay.checkoutDate = none) →
      ((∀ st0, stay.status = some st0 → determine_state (some stay) now = st0) ∧
       (stay.status = none → determine_state (some stay) now = .POST_STAY))) := by
  refine ⟨rfl, ?_, ?_⟩
  · intro ci co hci hco
    refine ⟨?_, ?_, ?_⟩
    · intro h1
      simp only [determine_state, hci, hco]
      rw [if_pos h1]
    · intro h1 h2
      simp only [determine_state, hci, hco]
      rw [if_neg (by omega), if_pos ⟨h1, h2⟩]
    · intro h1 h2
      simp only [determine_state, hci, hco]
      rw [if_neg (by omega), if_neg (by omega)]
  · intro hmiss
    constructor
    · intro st0 hst
      rcases hmiss with h | h
      · simp [determine_state, h, hst]
      · rcases hci : stay.checkinDate with _ | ci
        · simp [determine_state, hci, hst]
        · simp [determine_state, hci, h, hst]
    · intro hst
      rcases hmiss with h | h
      · simp [determine_state, h, hst]
      · rcases hci : stay.checkinDate with _ | ci
        · simp [determine_state, hci, hst]
        · simp [determine_state, hci, h, hst]

/-- Witness for C10 at a concrete stay and time inside the interval. -/
theorem c10_witness : determine_state (some cStay10) 100 = .IN_HOUSE :=
  ((c10_determine_state_total cStay10 100).2.1 50 200 rfl rfl).2.1 (by decide) (by decide)

/-!  ## C9 — channel first-contact PII vs PMS-sync PII -/

/-- C9: the channel first-contact path (`_ensure_guest_pii`) leaves the
store untouched whenever the guest's PII phone is already populated — it
populates at most once and never overwrites — whereas the PMS sync path
(`_upsert_guest_pii`) overwrites name and phone with the reservation data
on every call. -/
theorem c9_pii_authority (db : DB) (guest : Guest) (phone name ph : String)
    (email : Option String) :
    (∀ pii, db.piis.find? (fun p => decide (p.guestId = guest.id)) = some pii →
      strTruthy pii.phonePlain = true → _ensure_guest_pii db guest phone = db) ∧
    (∃ q, (_upsert_guest_pii db guest name ph email).piis.find?
        (fun p => decide (p.guestId = guest.id)) = some q ∧
      q.fullName = some name ∧ q.phonePlain = some ph) := by
  constructor
  · intro pii hfind hpop
    by_cases hp : phone = ""
    · simp [_ensure_guest_pii, hp]
    · rcases hc : canonical_phone phone with _ | c
      · simp [_ensure_guest_pii, hp, hc]
      · simp [_ensure_guest_pii, hp, hc, hfind, hpop]
  · have hinv : ∀ x : GuestPII,
        (fun p => decide (p.guestId = guest.id))
          ((fun p => if p.guestId = guest.id then pmsUpdatedPii p name ph email else p) x) =
        (fun p => decide (p.guestId = guest.id)) x := by
      intro x
      by_cases hx : x.guestId = guest.id <;> simp [hx, pmsUpdatedPii]
    rcases hfind : db.piis.find? (fun p => decide (p.guestId = guest.id)) with _ | pii
    · refine ⟨⟨guest.id, some name, some ph, email⟩, ?_, rfl, rfl⟩
      simp only [_upsert_guest_pii, hfind]
      rw [find?_append_right hfind]
      simp
    · have hpg : pii.guestId = guest.id := by
        have := List.find?_some hfind
        simpa using this
      refine ⟨pmsUpdatedPii pii name ph email, ?_, rfl, rfl⟩
      have hmapform : (_upsert_guest_pii db guest name ph email).piis =
          db.piis.map (fun p => if p.guestId = guest.id then pmsUpdatedPii p name ph email
            else p) := by
        simp only [_upsert_guest_pii, hfind, pmsUpdatedPii]
      rw [hmapform, find?_map_inv hinv, hfind]
      simp [hpg]

/-- Witness for C9: on `cdb9` (populated PII) the first-contact path is a
no-op and the PMS path overwrites name and phone. -/
theorem c9_witness :
    _ensure_guest_pii cdb9 cGuest9 "0721999999" = cdb9 ∧
    (∃ q, (_upsert_guest_pii cdb9 cGuest9 "Maria" "40722000222" none).piis.find?
        (fun p => decide (p.guestId = cGuest9.id)) = some q ∧
      q.fullName = some "Maria" ∧ q.phonePlain = some "40722000222") :=
  ⟨(c9_pii_authority cdb9 cGuest9 "0721999999" "Maria" "40722000222" none).1 cPii9
      (by decide) (by decide),
   (c9_pii_authority cdb9 cGuest9 "0721999999" "Maria" "40722000222" none).2⟩

/-!  ## C7 — task dedup window -/

/-- C7: two task requests with identical (tenant, type, summary) within
the 60-second dedup window produce exactly one Task row — the second
returns the existing task — and a third request after the window produces
a second row. -/
theorem c7_task_dedup_window (db : DB) (h : Nat) (ty : TaskType) (summary priority : String)
    (stayId : Option Nat) (t1 t2 t3 : Int)
    (hclean : ∀ t ∈ db.tasks, ¬(t.hotelId = h ∧ t.type = ty ∧ t.staffSummary = some summary))
    (hwin : t2 - 60 ≤ t1) (hafter : t1 < t3 - 60) :
    (_create_task (_create_task db h ty summary priority stayId t1).1
        h ty summary priority stayId t2).2 =
      (_create_task db h ty summary priority stayId t1).2 ∧
    (_create_task (_create_task db h ty summary priority stayId t1).1
        h ty summary priority stayId t2).1.tasks.length =
      (_create_task db h ty summary priority stayId t1).1.tasks.length ∧
    ((_create_task (_create_task db h ty summary priority stayId t1).1
        h ty summary priority stayId t2).1.tasks.filter (fun t =>
          decide (t.hotelId = h ∧ t.type = ty ∧ t.staffSummary = some summary))).length = 1 ∧
    (_create_task (_create_task (_create_task db h ty summary priority stayId t1).1
        h ty summary priority stayId t2).1 h ty summary priority stayId t3).2.id ≠
      (_create_task db h ty summary priority stayId t1).2.id ∧
    ((_create_task (_create_task (_create_task db h ty summary priority stayId t1).1
        h ty summary priority stayId t2).1 h ty summary priority stayId t3).1.tasks.filter
        (fun t =>
          decide (t.hotelId = h ∧ t.type = ty ∧ t.staffSummary = some summary))).length = 2 := by
  have hfalse : ∀ (tt : Int), ∀ t ∈ db.tasks,
      (decide (t.hotelId = h ∧ t.type = ty ∧ tt - 60 ≤ t.createdAt ∧
        t.staffSummary = some summary)) = false := by
    intro tt t ht
    simp only [decide_eq_false_iff_not]
    rintro ⟨ha, hb, _, hd⟩
    exact hclean t ht ⟨ha, hb, hd⟩
  have hbase : ∀ t ∈ db.tasks,
      (decide (t.hotelId = h ∧ t.type = ty ∧ t.staffSummary = some summary)) = false := by
    intro t ht
    simp only [decide_eq_false_iff_not]
    exact hclean t ht
  have hnone1 : db.tasks.find? (fun t => decide (t.hotelId = h ∧ t.type = ty ∧
      t1 - 60 ≤ t.createdAt ∧ t.staffSummary = some summary)) = none :=
    List.find?_eq_none.mpr (fun t ht => by rw [hfalse t1 t ht]; simp)
  have h1 : _create_task db h ty summary priority stayId t1 =
      ({ db with tasks := db.tasks ++ [mkOpenTask db.nextTaskId h stayId ty summary priority t1],
                 nextTaskId := db.nextTaskId + 1 },
       mkOpenTask db.nextTaskId h stayId ty summary priority t1) := by
    simp only [_create_task, hnone1, mkOpenTask]
  have hnone2l : db.tasks.find? (fun t => decide (t.hotelId = h ∧ t.type = ty ∧
      t2 - 60 ≤ t.createdAt ∧ t.staffSummary = some summary)) = none :=
    List.find?_eq_none.mpr (fun t ht => by rw [hfalse t2 t ht]; simp)
  have hsome2 : (db.tasks ++ [mkOpenTask db.nextTaskId h stayId ty summary priority t1]).find?
      (fun t => decide (t.hotelId = h ∧ t.type = ty ∧
        t2 - 60 ≤ t.createdAt ∧ t.staffSummary = some summary)) =
      some (mkOpenTask db.nextTaskId h stayId ty summary priority t1) := by
    rw [find?_append_right hnone2l]
    simp only [List.find?_cons, List.find?_nil]
    have hyes : t2 - 60 ≤ t1 := hwin
    simp [mkOpenTask, hyes]
  have h2 : _create_task (_create_task db h ty summary priority stayId t1).1
      h ty summary priority stayId t2 =
      ((_create_task db h ty summary priority stayId t1).1,
       mkOpenTask db.nextTaskId h stayId ty summary priority t1) := by
    rw [h1]
    simp only [_create_task, hsome2]
  have hnone3l : db.tasks.find? (fun t => decide (t.hotelId = h ∧ t.type = ty ∧
      t3 - 60 ≤ t.createdAt ∧ t.staffSummary = some summary)) = none :=
    List.find?_eq_none.mpr (fun t ht => by rw [hfalse t3 t ht]; simp)
  have hnone3 : (db.tasks ++ [mkOpenTask db.nextTaskId h stayId ty summary priority t1]).find?
      (fun t => decide (t.hotelId = h ∧ t.type = ty ∧
        t3 - 60 ≤ t.createdAt ∧ t.staffSummary = some summary)) = none := by
    rw [find?_append_right hnone3l]
    simp only [List.find?_cons, List.find?_nil]
    have hno : ¬ (t3 - 60 ≤ t1) := by omega
    simp [mkOpenTask, hno]
  have hfilter1 : (db.tasks.filter (fun t =>
      decide (t.hotelId = h ∧ t.type = ty ∧ t.staffSummary = some summary))) = [] :=
    List.filter_eq_nil_iff.mpr (fun t ht => by rw [hbase t ht]; simp)
  refine ⟨by rw [h2, h1], by rw [h2], ?_, ?_, ?_⟩
  · rw [h2, h1]
    simp only [List.filter_append, hfilter1, List.nil_append, List.filter_cons]
    simp [mkOpenTask]
  · rw [h2, h1]
    simp only [_create_task, hnone3]
    simp [mkOpenTask]
  · rw [h2, h1]
    simp only [_create_task, hnone3]
    simp only [List.filter_append, hfilter1, List.nil_append, List.filter_cons]
    simp [mkOpenTask]

/-- Witness for C7 on an empty store with requests at times 100, 150 (inside
the 60-second window) and 300 (outside it). -/
theorem c7_witness :
    (_create_task (_create_task emptyDB 1 .HOUSEKEEPING "Room 101: towels" "NORMAL" none 100).1
        1 .HOUSEKEEPING "Room 101: towels" "NORMAL" none 150).2 =
      (_create_task emptyDB 1 .HOUSEKEEPING "Room 101: towels" "NORMAL" none 100).2 ∧
    ((_create_task (_create_task (_create_task emptyDB 1 .HOUSEKEEPING "Room 101: towels"
        "NORMAL" none 100).1 1 .HOUSEKEEPING "Room 101: towels" "NORMAL" none 150).1
        1 .HOUSEKEEPING "Room 101: towels" "NORMAL" none 300).1.tasks.filter (fun t =>
          decide (t.hotelId = 1 ∧ t.type = TaskType.HOUSEKEEPING ∧
            t.staffSummary = some "Room 101: towels"))).length = 2 := by
  have h := c7_task_dedup_window emptyDB 1 .HOUSEKEEPING "Room 101: towels" "NORMAL" none
    100 150 300 (by intro t ht; simp [emptyDB] at ht) (by omega) (by omega)
  exact ⟨h.1, h.2.2.2.2⟩

/-!  ## C3 — phone-variant resolution

Combinatorial facts about `phone_variants`: the canonical (longest)
variant of a raw identifier is the stripped digit string; every other
variant is one character shorter; variant generation never lengthens its
input, so no proper variant regenerates the canonical. -/

theorem stripDoubleZero_length (l : List Char) :
    (stripDoubleZero l).length ≤ l.length := by
  unfold stripDoubleZero
  split
  · simp
    omega
  · exact le_refl _

theorem stripDoubleZero_all {l : List Char} (h : l.all Char.isDigit = true) :
    (stripDoubleZero l).all Char.isDigit = true := by
  unfold stripDoubleZero
  split
  · simp_all
  · exact h

theorem mem_dropLeadingZero {d v : List Char} (h : v ∈ dropLeadingZero d) :
    v.length + 1 = d.length ∧ v ≠ [] ∧
    (d.all Char.isDigit = true → v.all Char.isDigit = true) := by
  unfold dropLeadingZero at h
  split at h
  · next c rest =>
    simp only [List.mem_singleton] at h
    subst h
    refine ⟨by simp, by simp, ?_⟩
    intro hall
    simp_all
  · simp at h

theorem mem_intlToLocal {d v : List Char} (h : v ∈ intlToLocal d) :
    v.length + 1 = d.length ∧ v ≠ [] ∧
    (d.all Char.isDigit = true → v.all Char.isDigit = true) := by
  unfold intlToLocal at h
  split at h
  · next c rest =>
    simp only [List.mem_singleton] at h
    subst h
    refine ⟨by simp, by simp, ?_⟩
    intro hall
    simp_all
  · simp at h

theorem variants_chars_shape {raw : List Char} (h : phone_variants_chars raw ≠ []) :
    ∃ extras, phone_variants_chars raw =
        stripDoubleZero (raw.filter Char.isDigit) :: extras ∧
      stripDoubleZero (raw.filter Char.isDigit) ≠ [] ∧
      extras = dropLeadingZero (stripDoubleZero (raw.filter Char.isDigit)) ++
        intlToLocal (stripDoubleZero (raw.filter Char.isDigit)) := by
  by_cases hdig : raw.filter Char.isDigit = []
  · exfalso
    apply h
    simp [phone_variants_chars, hdig]
  · by_cases hdne : stripDoubleZero (raw.filter Char.isDigit) = []
    · exfalso
      apply h
      simp only [phone_variants_chars]
      rw [if_neg hdig, hdne]
      rfl
    · refine ⟨dropLeadingZero (stripDoubleZero (raw.filter Char.isDigit)) ++
        intlToLocal (stripDoubleZero (raw.filter Char.isDigit)), ?_, hdne, rfl⟩
      have hkeep : ∀ v ∈ stripDoubleZero (raw.filter Char.isDigit) ::
          (dropLeadingZero (stripDoubleZero (raw.filter Char.isDigit)) ++
           intlToLocal (stripDoubleZero (raw.filter Char.isDigit))),
          (fun v => decide (v ≠ [])) v = true := by
        intro v hv
        rcases List.mem_cons.mp hv with h1 | h1
        · subst h1; simpa using hdne
        · rcases List.mem_append.mp h1 with h2 | h2
          · simpa using (mem_dropLeadingZero h2).2.1
          · simpa using (mem_intlToLocal h2).2.1
      simp only [phone_variants_chars, hdig, if_neg hdig]
      exact List.filter_eq_self.mpr hkeep

theorem mem_variants_chars_facts {raw v : List Char} (h : v ∈ phone_variants_chars raw) :
    v.length ≤ (stripDoubleZero (raw.filter Char.isDigit)).length ∧
    v.all Char.isDigit = true ∧ v ≠ [] := by
  have hne : phone_variants_chars raw ≠ [] := by
    intro hcon
    rw [hcon] at h
    simp at h
  obtain ⟨extras, hshape, hdne, hextras⟩ := variants_chars_shape hne
  have hall : (raw.filter Char.isDigit).all Char.isDigit = true :=
    List.all_eq_true.mpr (fun x hx => (List.mem_filter.mp hx).2)
  have halld := stripDoubleZero_all hall
  rw [hshape] at h
  rcases List.mem_cons.mp h with h1 | h1
  · subst h1
    exact ⟨le_refl _, halld, hdne⟩
  · rw [hextras] at h1
    rcases List.mem_append.mp h1 with h2 | h2
    · obtain ⟨hlen, hne2, hdig2⟩ := mem_dropLeadingZero h2
      exact ⟨by omega, hdig2 halld, hne2⟩
    · obtain ⟨hlen, hne2, hdig2⟩ := mem_intlToLocal h2
      exact ⟨by omega, hdig2 halld, hne2⟩

theorem fold_keep_longest (l : List String) (a : String)
    (h : ∀ b ∈ l, b.length < a.length) :
    l.foldl (fun a b => if a.length < b.length then b else a) a = a := by
  induction l with
  | nil => rfl
  | cons b t ih =>
    have hb : b.length < a.length := h b (List.mem_cons_self b t)
    have : ¬ (a.length < b.length) := by omega
    simp only [List.foldl_cons, if_neg this]
    exact ih (fun x hx => h x (List.mem_cons_of_mem b hx))

theorem canonical_spec {raw c : String} (h : canonical_phone raw = some c) :
    c.data = stripDoubleZero (raw.data.filter Char.isDigit) ∧ c.data ≠ [] ∧
    c ∈ phone_variants raw ∧
    (∀ v ∈ phone_variants raw, v ≠ c → v.data.length + 1 = c.data.length) := by
  have hne : phone_variants_chars raw.data ≠ [] := by
    intro hcon
    rw [canonical_phone] at h
    unfold phone_variants at h
    rw [hcon] at h
    simp at h
  obtain ⟨extras, hshape, hdne, hextras⟩ := variants_chars_shape hne
  have hvar : phone_variants raw =
      String.mk (stripDoubleZero (raw.data.filter Char.isDigit)) ::
        extras.map (fun l => String.mk l) := by
    unfold phone_variants
    rw [hshape]
    rfl
  have hlens : ∀ b ∈ extras.map (fun l => String.mk l),
      b.length < (String.mk (stripDoubleZero (raw.data.filter Char.isDigit))).length := by
    intro b hb
    obtain ⟨e, he, hbe⟩ := List.mem_map.mp hb
    have he2 : e ∈ phone_variants_chars raw.data := by
      rw [hshape]
      exact List.mem_cons_of_mem _ he
    rw [hextras] at he
    rcases List.mem_append.mp he with h2 | h2
    · obtain ⟨hlen, _, _⟩ := mem_dropLeadingZero h2
      subst hbe
      simp only [String.length]
      omega
    · obtain ⟨hlen, _, _⟩ := mem_intlToLocal h2
      subst hbe
      simp only [String.length]
      omega
  have hc : c = String.mk (stripDoubleZero (raw.data.filter Char.isDigit)) := by
    rw [canonical_phone, hvar] at h
    simp only [Option.some_inj] at h
    rw [← h]
    exact fold_keep_longest _ _ hlens
  subst hc
  refine ⟨rfl, hdne, by rw [hvar]; exact List.mem_cons_self _ _, ?_⟩
  intro v hv hvne
  rw [hvar] at hv
  rcases List.mem_cons.mp hv with h1 | h1
  · exact absurd h1 hvne
  · obtain ⟨e, he, hbe⟩ := List.mem_map.mp h1
    rw [hextras] at he
    rcases List.mem_append.mp he with h2 | h2
    · obtain ⟨hlen, _, _⟩ := mem_dropLeadingZero h2
      subst hbe
      simpa using hlen
    · obtain ⟨hlen, _, _⟩ := mem_intlToLocal h2
      subst hbe
      simpa using hlen

theorem canonical_all_digits {raw c : String} (h : canonical_phone raw = some c) :
    c.data.all Char.isDigit = true := by
  obtain ⟨hdata, _, _, _⟩ := canonical_spec h
  rw [hdata]
  exact stripDoubleZero_all
    (List.all_eq_true.mpr (fun x hx => (List.mem_filter.mp hx).2))

theorem canonical_self_mem {raw c : String} (h : canonical_phone raw = some c)
    (h00 : stripDoubleZero c.data = c.data) : c ∈ phone_variants c := by
  obtain ⟨hdata, hdne, _, _⟩ := canonical_spec h
  have hall := canonical_all_digits h
  have hfilter : c.data.filter Char.isDigit = c.data :=
    List.filter_eq_self.mpr (List.all_eq_true.mp hall)
  have hchars : phone_variants_chars c.data =
      (c.data :: (dropLeadingZero c.data ++ intlToLocal c.data)).filter
        (fun v => decide (v ≠ [])) := by
    simp only [phone_variants_chars]
    rw [hfilter, h00, if_neg hdne]
  have hmem : c.data ∈ phone_variants_chars c.data := by
    rw [hchars]
    apply List.mem_filter.mpr
    exact ⟨List.mem_cons_self _ _, by simpa using hdne⟩
  unfold phone_variants
  exact List.mem_map.mpr ⟨c.data, hmem, rfl⟩

theorem no_short_variant_regenerates {raw c : String} (h : canonical_phone raw = some c) :
    ∀ v ∈ phone_variants raw, v ≠ c → c ∉ phone_variants v := by
  obtain ⟨hdata, hdne, hmem, hshort⟩ := canonical_spec h
  intro v hv hvne hcon
  obtain ⟨u, hu, huc⟩ := List.mem_map.mp (by
    unfold phone_variants at hcon
    exact hcon)
  have hcu : c.data = u := by rw [← huc]
  obtain ⟨hle, _, _⟩ := mem_variants_chars_facts hu
  have hlen1 : v.data.length + 1 = c.data.length := hshort v hv hvne
  have hfle : (v.data.filter Char.isDigit).length ≤ v.data.length :=
    List.length_filter_le _ _
  have hstrip : (stripDoubleZero (v.data.filter Char.isDigit)).length ≤
      (v.data.filter Char.isDigit).length := stripDoubleZero_length _
  rw [← hcu] at hle
  omega

/-- C3 counterexample: the spec claims every generated variant of a
canonical number resolves to the same Guest.  For the international
canonical `40721000111`, the generated local variant `0721000111`
produces only the hashes of `0721000111` and `721000111`, which do not
include the stored canonical hash; resolving it therefore creates a new
Guest (id 2) instead of finding the stored one (id 1). -/
theorem c3_counterexample :
    canonical_phone "40721000111" = some "40721000111" ∧
    "0721000111" ∈ phone_variants "40721000111" ∧
    sha256_hexdigest "40721000111" ∉
      (phone_variants "0721000111").map sha256_hexdigest ∧
    cGuest3.phoneHash = sha256_hexdigest "40721000111" ∧
    (∀ g ∈ cdb3.guests, g.id = 1) ∧
    (resolve_identity cdb3 "0721000111" (some 1) 0).2.map
      (fun ctx => ctx.guest.id) = some 2 := by
  refine ⟨by decide, by decide, by decide, by decide, by decide, ?_⟩
  decide

/-- C3 amended: resolution hashes every variant of the *input* and matches
them against the stored hash of the canonical variant.  The canonical
variant regenerates itself (whenever it does not start with `00`) and so
resolves to the stored Guest, but every *other* generated variant is
strictly shorter, generates only still-shorter variants (prefixes are
stripped, never re-added), and thus never matches the stored canonical
hash: it resolves to a different Guest. -/
theorem c3_amended (raw c : String) (hc : canonical_phone raw = some c)
    (h00 : stripDoubleZero c.data = c.data) :
    c ∈ phone_variants c ∧
    sha256_hexdigest c ∈ (phone_variants c).map sha256_hexdigest ∧
    (∀ v ∈ phone_variants raw, v ≠ c →
      sha256_hexdigest c ∉ (phone_variants v).map sha256_hexdigest) ∧
    (∀ (db : DB) (hid : Nat) (hotel : Hotel) (G : Guest) (now : Int),
      hid ≠ default_hotel_id → hid ≠ 0 →
      _ensure_hotel db hid = some hotel →
      G ∈ db.guests → G.hotelId = hotel.id →
      G.phoneHash = sha256_hexdigest c →
      (∀ g ∈ db.guests, g.hotelId = hotel.id →
        g.phoneHash ∈ (phone_variants c).map sha256_hexdigest → g = G) →
      ∃ ctx, (resolve_identity db c (some hid) now).2 = some ctx ∧ ctx.guest = G) := by
  have hself := canonical_self_mem hc h00
  have hinj : ∀ a b : String, sha256_hexdigest a = sha256_hexdigest b → a = b := by
    intro a b hab
    exact hab
  refine ⟨hself, List.mem_map.mpr ⟨c, hself, rfl⟩, ?_, ?_⟩
  · intro v hv hvne hcon
    obtain ⟨u, hu, huc⟩ := List.mem_map.mp hcon
    have : u = c := hinj u c huc
    subst this
    exact no_short_variant_regenerates hc v hv hvne hu
  · intro db hid hotel G now hhid hhid0 hhotel hG hGh hGhash huniq
    have husefalse : ¬ ((some hid : Option Nat) = none ∨
        (some hid : Option Nat) = some default_hotel_id) := by
      rintro (h1 | h1)
      · simp at h1
      · simp only [Option.some_inj] at h1
        exact hhid h1
    have hhashes : ¬ ((phone_variants c).map sha256_hexdigest = []) := by
      intro hcon
      have hm : sha256_hexdigest c ∈ (phone_variants c).map sha256_hexdigest :=
        List.mem_map.mpr ⟨c, hself, rfl⟩
      rw [hcon] at hm
      simp at hm
    have hfound : db.guests.find? (fun g => decide (g.hotelId = hotel.id ∧
        g.phoneHash ∈ (phone_variants c).map sha256_hexdigest)) = some G := by
      apply find?_eq_some_of_unique hG
      · simp only [decide_eq_true_eq]
        refine ⟨hGh, ?_⟩
        rw [hGhash]
        exact List.mem_map.mpr ⟨c, hself, rfl⟩
      · intro y hy hpy
        simp only [decide_eq_true_eq] at hpy
        exact huniq y hy hpy.1 hpy.2
    have hpy : pyOrDefaultHotel (some hid) = hid := by
      unfold pyOrDefaultHotel
      exact if_neg hhid0
    simp only [resolve_identity, hpy]
    rw [if_neg husefalse]
    simp only [hhotel]
    rw [if_neg hhashes]
    simp only [hfound]
    exact ⟨_, rfl, rfl⟩

/-- Witness for C3 (amended): the canonical number `40721000111`, stored
for the guest of the non-default tenant, resolves to that same guest. -/
theorem c3_witness :
    canonical_phone "40721000111" = some "40721000111" ∧
    (∃ ctx, (resolve_identity cdb3b "40721000111" (some 2) 0).2 = some ctx ∧
      ctx.guest = cGuest3b) := by
  refine ⟨by decide, ?_⟩
  exact (c3_amended "40721000111" "40721000111" (by decide) (by decide)).2.2.2
    cdb3b 2 cHotel2 cGuest3b 0 (by decide) (by decide) (by decide) (by decide)
    (by decide) (by decide) (by decide)

/-!  ## Journey Scheduler lemmas (C5, C6)

`processEvent` only ever writes the store through record updates that
leave `stays`, `guests`, `piis`, `hotels` and `journeys` untouched, and
through a single `setEventStatus` on the processed event's own id. -/

theorem journeyConversation_frame (db : DB) (ev : JourneyEvent) (stay : Stay) (now : Int) :
    (journeyConversation db ev stay now).1.stays = db.stays ∧
    (journeyConversation db ev stay now).1.guests = db.guests ∧
    (journeyConversation db ev stay now).1.piis = db.piis ∧
    (journeyConversation db ev stay now).1.hotels = db.hotels ∧
    (journeyConversation db ev stay now).1.journeys = db.journeys ∧
    (journeyConversation db ev stay now).1.events = db.events := by
  cases hfind : latestCreatedConv (db.conversations.filter (fun c =>
      decide (c.hotelId = ev.hotelId ∧ c.guestId = ev.guestId ∧
              c.channel = "whatsapp" ∧ c.status = .OPEN))) with
  | none =>
    simp only [journeyConversation]
    rw [hfind]
    simp
  | some conv =>
    by_cases hst : conv.stayId ≠ some ev.stayId
    · simp only [journeyConversation]
      rw [hfind]
      simp [hst]
    · simp only [journeyConversation]
      rw [hfind]
      simp [hst]

theorem dispatchMessageWrites_frame (now : Int) (o : DispatchOracle) (db1 : DB)
    (ev : JourneyEvent) (conv : Conversation) (stay : Stay) (hotel : Hotel) :
    (dispatchMessageWrites now o db1 ev conv stay hotel).stays = db1.stays ∧
    (dispatchMessageWrites now o db1 ev conv stay hotel).guests = db1.guests ∧
    (dispatchMessageWrites now o db1 ev conv stay hotel).piis = db1.piis ∧
    (dispatchMessageWrites now o db1 ev conv stay hotel).hotels = db1.hotels ∧
    (dispatchMessageWrites now o db1 ev conv stay hotel).journeys = db1.journeys ∧
    (dispatchMessageWrites now o db1 ev conv stay hotel).events = db1.events := by
  simp only [dispatchMessageWrites]
  split_ifs <;> exact ⟨rfl, rfl, rfl, rfl, rfl, rfl⟩

theorem processEvent_shape (now : Int) (o : DispatchOracle) (db : DB) (ev : JourneyEvent) :
    ∃ db' : DB,
      ((processEvent now o db ev).1 = db' ∨
       ∃ s, (processEvent now o db ev).1 = setEventStatus db' ev.id s) ∧
      db'.stays = db.stays ∧ db'.guests = db.guests ∧ db'.piis = db.piis ∧
      db'.hotels = db.hotels ∧ db'.journeys = db.journeys ∧ db'.events = db.events := by
  cases hstay : db.stays.find? (fun s => decide (s.id = ev.stayId)) with
  | none =>
    refine ⟨db, Or.inr ⟨.CANCELLED, ?_⟩, rfl, rfl, rfl, rfl, rfl, rfl⟩
    simp [processEvent, hstay]
  | some stay =>
    obtain ⟨hf1, hf2, hf3, hf4, hf5, hf6⟩ := journeyConversation_frame db ev stay now
    by_cases h1 : determine_state (some stay) now ≠ .IN_HOUSE
    · refine ⟨db, Or.inl ?_, rfl, rfl, rfl, rfl, rfl, rfl⟩
      simp [processEvent, hstay, h1]
    · by_cases h2 : stay.whatsappOptIn = false
      · refine ⟨db, Or.inr ⟨.CANCELLED, ?_⟩, rfl, rfl, rfl, rfl, rfl, rfl⟩
        simp [processEvent, hstay, h1, h2]
      · by_cases h3 : ¬ strTruthy (_get_wa_id db ev)
        · refine ⟨db, Or.inr ⟨.CANCELLED, ?_⟩, rfl, rfl, rfl, rfl, rfl, rfl⟩
          simp [processEvent, hstay, h1, h2, h3]
        · by_cases h4 : ((journeyConversation db ev stay now).1.messages.any (fun m =>
              decide (m.conversationId = (journeyConversation db ev stay now).2.id ∧
                m.direction = .OUTGOING ∧ m.text = o.renderText ev.id ∧
                now - 300 ≤ m.createdAt))) = true
          · refine ⟨(journeyConversation db ev stay now).1, Or.inr ⟨.SENT, ?_⟩,
              hf1, hf2, hf3, hf4, hf5, hf6⟩
            simp only [processEvent, hstay]
            rw [if_neg h1, if_neg h2, if_neg h3]
            simp only [h4, if_true]
          · cases hhot : (journeyConversation db ev stay now).1.hotels.find?
                (fun h => decide (h.id = ev.hotelId)) with
            | none =>
              refine ⟨(journeyConversation db ev stay now).1, Or.inl ?_,
                hf1, hf2, hf3, hf4, hf5, hf6⟩
              simp only [processEvent, hstay]
              rw [if_neg h1, if_neg h2, if_neg h3]
              simp only [h4, if_false, Bool.not_eq_true, hhot]
              simp
            | some hotel =>
              obtain ⟨hw1, hw2, hw3, hw4, hw5, hw6⟩ := dispatchMessageWrites_frame now o
                (journeyConversation db ev stay now).1 ev
                (journeyConversation db ev stay now).2 stay hotel
              cases hsend : o.sendOk ev.id with
              | true =>
                refine ⟨dispatchMessageWrites now o (journeyConversation db ev stay now).1 ev
                    (journeyConversation db ev stay now).2 stay hotel,
                  Or.inr ⟨.SENT, ?_⟩, hw1.trans hf1, hw2.trans hf2, hw3.trans hf3,
                  hw4.trans hf4, hw5.trans hf5, hw6.trans hf6⟩
                simp only [processEvent, hstay]
                rw [if_neg h1, if_neg h2, if_neg h3]
                simp only [h4, if_false, Bool.not_eq_true, hhot, hsend, if_true]
                simp
              | false =>
                refine ⟨dispatchMessageWrites now o (journeyConversation db ev stay now).1 ev
                    (journeyConversation db ev stay now).2 stay hotel,
                  Or.inr ⟨.CANCELLED, ?_⟩, hw1.trans hf1, hw2.trans hf2, hw3.trans hf3,
                  hw4.trans hf4, hw5.trans hf5, hw6.trans hf6⟩
                simp only [processEvent, hstay]
                rw [if_neg h1, if_neg h2, if_neg h3]
                simp only [h4, if_false, Bool.not_eq_true, hhot, hsend, if_false]
                simp

theorem setEventStatus_status_frame {db : DB} {i : Nat} {s : JourneyEventStatus} {j : Nat}
    (hne : j ≠ i) :
    ∀ e' ∈ (setEventStatus db i s).events, e'.id = j →
      ∃ e0 ∈ db.events, e0.id = j ∧ e'.status = e0.status := by
  intro e' he' hid
  obtain ⟨e0, he0, hfe⟩ := List.mem_map.mp (by simpa [setEventStatus] using he')
  by_cases h : e0.id = i
  · rw [if_pos h] at hfe
    rw [← hfe] at hid
    simp at hid
    rw [hid] at h
    exact absurd h hne
  · rw [if_neg h] at hfe
    rw [← hfe] at hid ⊢
    exact ⟨e0, he0, hid, rfl⟩

theorem processEvent_status_frame (now : Int) (o : DispatchOracle) (db : DB)
    (ev : JourneyEvent) {j : Nat} (hne : j ≠ ev.id) :
    ∀ e' ∈ (processEvent now o db ev).1.events, e'.id = j →
      ∃ e0 ∈ db.events, e0.id = j ∧ e'.status = e0.status := by
  obtain ⟨db', hcase, _, _, _, _, _, hev⟩ := processEvent_shape now o db ev
  intro e' he' hid
  rcases hcase with h | ⟨s, h⟩
  · rw [h, hev] at he'
    exact ⟨e', he', hid, rfl⟩
  · rw [h] at he'
    obtain ⟨e0, he0, hid0, hst0⟩ := setEventStatus_status_frame hne e' he' hid
    rw [hev] at he0
    exact ⟨e0, he0, hid0, hst0⟩

theorem processEvent_frame (now : Int) (o : DispatchOracle) (db : DB) (ev : JourneyEvent) :
    (processEvent now o db ev).1.stays = db.stays ∧
    (processEvent now o db ev).1.guests = db.guests ∧
    (processEvent now o db ev).1.piis = db.piis := by
  obtain ⟨db', hcase, h1, h2, h3, _, _, _⟩ := processEvent_shape now o db ev
  rcases hcase with h | ⟨s, h⟩ <;> rw [h] <;> exact ⟨h1, h2, h3⟩

theorem dispatchLoop_notouch (now : Int) (o : DispatchOracle) (j : Nat) :
    ∀ (l : List JourneyEvent) (db : DB), (∀ e ∈ l, e.id ≠ j) →
      (∀ e' ∈ (dispatchLoop now o db l).1.events, e'.id = j →
        ∃ e0 ∈ db.events, e0.id = j ∧ e'.status = e0.status) ∧
      j ∉ (dispatchLoop now o db l).2 := by
  intro l
  induction l with
  | nil =>
    intro db _
    exact ⟨fun e' he' hid => ⟨e', he', hid, rfl⟩, by simp [dispatchLoop]⟩
  | cons x rest ih =>
    intro db hl
    have hx : x.id ≠ j := hl x (List.mem_cons_self x rest)
    obtain ⟨ihev, ihsent⟩ :=
      ih (processEvent now o db x).1 (fun e he => hl e (List.mem_cons_of_mem _ he))
    constructor
    · intro e' he' hid
      simp only [dispatchLoop] at he'
      obtain ⟨e0, he0, hid0, hst0⟩ := ihev e' he' hid
      obtain ⟨e00, he00, hid00, hst00⟩ :=
        processEvent_status_frame now o db x (fun hh => hx hh.symm) e0 he0 hid0
      exact ⟨e00, he00, hid00, hst0.trans hst00⟩
    · simp only [dispatchLoop, List.mem_append]
      rintro (h | h)
      · by_cases hp : (processEvent now o db x).2 = true
        · rw [if_pos hp] at h
          simp at h
          exact hx h.symm
        · simp only [Bool.not_eq_true] at hp
          rw [hp] at h
          simp at h
      · exact ihsent h

theorem dispatchLoop_at (now : Int) (o : DispatchOracle) (ev : JourneyEvent) :
    ∀ (l : List JourneyEvent) (db : DB), ev ∈ l → (l.map JourneyEvent.id).Nodup →
      ∃ dbPre : DB, dbPre.stays = db.stays ∧ dbPre.guests = db.guests ∧
        dbPre.piis = db.piis ∧
        (∀ e' ∈ dbPre.events, e'.id = ev.id →
          ∃ e0 ∈ db.events, e0.id = ev.id ∧ e'.status = e0.status) ∧
        (∀ e' ∈ (dispatchLoop now o db l).1.events, e'.id = ev.id →
          ∃ e'' ∈ (processEvent now o dbPre ev).1.events, e''.id = ev.id ∧
            e'.status = e''.status) ∧
        ((processEvent now o dbPre ev).2 = false → ev.id ∉ (dispatchLoop now o db l).2) := by
  intro l
  induction l with
  | nil => intro db hmem; simp at hmem
  | cons x rest ih =>
    intro db hmem hnd
    have hndrest : (rest.map JourneyEvent.id).Nodup := (List.nodup_cons.mp hnd).2
    have hxid : x.id ∉ rest.map JourneyEvent.id := (List.nodup_cons.mp hnd).1
    by_cases hx : x = ev
    · subst hx
      have hrest : ∀ e ∈ rest, e.id ≠ x.id := by
        intro e he hcon
        exact hxid (hcon ▸ List.mem_map_of_mem JourneyEvent.id he)
      obtain ⟨hnt1, hnt2⟩ := dispatchLoop_notouch now o x.id rest
        (processEvent now o db x).1 hrest
      refine ⟨db, rfl, rfl, rfl, fun e' he' hid => ⟨e', he', hid, rfl⟩, ?_, ?_⟩
      · intro e' he' hid
        simp only [dispatchLoop] at he'
        exact hnt1 e' he' hid
      · intro hatt
        simp only [dispatchLoop, List.mem_append, hatt, if_false]
        rintro (h | h)
        · simp at h
        · exact hnt2 h
    · have hmem' : ev ∈ rest := by
        rcases List.mem_cons.mp hmem with h | h
        · exact absurd h.symm hx
        · exact h
      have hxne : x.id ≠ ev.id := by
        intro hcon
        exact hxid (hcon ▸ List.mem_map_of_mem JourneyEvent.id hmem')
      obtain ⟨dbPre, hp1, hp2, hp3, hp4, hp5, hp6⟩ :=
        ih (processEvent now o db x).1 hmem' hndrest
      obtain ⟨hq1, hq2, hq3⟩ := processEvent_frame now o db x
      refine ⟨dbPre, hp1.trans hq1, hp2.trans hq2, hp3.trans hq3, ?_, ?_, ?_⟩
      · intro e' he' hid
        obtain ⟨e0, he0, hid0, hst0⟩ := hp4 e' he' hid
        obtain ⟨e00, he00, hid00, hst00⟩ :=
          processEvent_status_frame now o db x (fun hh => hxne hh.symm) e0 he0 hid0
        exact ⟨e00, he00, hid00, hst0.trans hst00⟩
      · intro e' he' hid
        simp only [dispatchLoop] at he'
        exact hp5 e' he' hid
      · intro hatt
        simp only [dispatchLoop, List.mem_append]
        rintro (h | h)
        · by_cases hp : (processEvent now o db x).2 = true
          · rw [if_pos hp] at h
            simp at h
            exact hxne h.symm
          · simp only [Bool.not_eq_true] at hp
            rw [hp] at h
            simp at h
        · exact hp6 hatt h

theorem setEventStatus_sets {db : DB} {i : Nat} {s : JourneyEventStatus} :
    ∀ e' ∈ (setEventStatus db i s).events, e'.id = i → e'.status = s := by
  intro e' he' hid
  obtain ⟨e0, he0, hfe⟩ := List.mem_map.mp (by simpa [setEventStatus] using he')
  by_cases h : e0.id = i
  · rw [if_pos h] at hfe
    rw [← hfe]
  · rw [if_neg h] at hfe
    rw [← hfe] at hid
    exact absurd hid h

theorem staleF_id (now : Int) (e : JourneyEvent) :
    (if e.status = .PENDING ∧ e.runAt ≤ now - 1800 then { e with status := .CANCELLED }
     else e).id = e.id := by
  split <;> rfl

theorem staleCancelPass_ids (db : DB) (now : Int) :
    (staleCancelPass db now).events.map JourneyEvent.id = db.events.map JourneyEvent.id := by
  simp only [staleCancelPass, List.map_map]
  apply List.map_congr_left
  intro e _
  exact staleF_id now e

theorem staleCancelPass_sets {db : DB} {now : Int} {ev : JourneyEvent}
    (hnd : (db.events.map JourneyEvent.id).Nodup) (hmem : ev ∈ db.events)
    (hcond : ev.status = .PENDING ∧ ev.runAt ≤ now - 1800) :
    ∀ e' ∈ (staleCancelPass db now).events, e'.id = ev.id → e'.status = .CANCELLED := by
  intro e' he' hid
  obtain ⟨e0, he0, hfe⟩ := List.mem_map.mp (by simpa [staleCancelPass] using he')
  have hid0 : e0.id = ev.id := by rw [← hid, ← hfe, staleF_id]
  have he0ev : e0 = ev := List.inj_on_of_nodup_map hnd he0 hmem hid0
  subst he0ev
  rw [if_pos hcond] at hfe
  rw [← hfe]

theorem staleCancelPass_unchanged_at {db : DB} {now : Int} {ev : JourneyEvent}
    (hnd : (db.events.map JourneyEvent.id).Nodup) (hmem : ev ∈ db.events)
    (hfresh : ¬ (ev.status = .PENDING ∧ ev.runAt ≤ now - 1800)) :
    ∀ e' ∈ (staleCancelPass db now).events, e'.id = ev.id → e' = ev := by
  intro e' he' hid
  obtain ⟨e0, he0, hfe⟩ := List.mem_map.mp (by simpa [staleCancelPass] using he')
  have hid0 : e0.id = ev.id := by rw [← hid, ← hfe, staleF_id]
  have he0ev : e0 = ev := List.inj_on_of_nodup_map hnd he0 hmem hid0
  subst he0ev
  rw [if_neg hfresh] at hfe
  exact hfe.symm

theorem staleCancelPass_keeps {db : DB} {now : Int} {ev : JourneyEvent}
    (hmem : ev ∈ db.events)
    (hfresh : ¬ (ev.status = .PENDING ∧ ev.runAt ≤ now - 1800)) :
    ev ∈ (staleCancelPass db now).events := by
  simp only [staleCancelPass]
  refine List.mem_map.mpr ⟨ev, hmem, ?_⟩
  rw [if_neg hfresh]

theorem staleCancelPass_cancelled {db : DB} {now : Int} {j : Nat}
    (h : ∀ e ∈ db.events, e.id = j → e.status = .CANCELLED) :
    ∀ e' ∈ (staleCancelPass db now).events, e'.id = j → e'.status = .CANCELLED := by
  intro e' he' hid
  obtain ⟨e0, he0, hfe⟩ := List.mem_map.mp (by simpa [staleCancelPass] using he')
  by_cases hc : e0.status = .PENDING ∧ e0.runAt ≤ now - 1800
  · rw [if_pos hc] at hfe
    rw [← hfe]
  · rw [if_neg hc] at hfe
    subst hfe
    exact h e0 he0 hid

/-!  ## C5 — stale PENDING events are cancelled and never dispatched -/

/-- C5: in every scheduler cycle the staleness pass (which commits before
the dispatch pass) cancels every PENDING event whose `run_at` is at least
30 minutes old, and no send is attempted for it — in that cycle or, once
CANCELLED, in any later cycle. -/
theorem c5_stale_never_dispatched :
    (∀ (db : DB) (now : Int) (o : DispatchOracle) (ev : JourneyEvent),
      (db.events.map JourneyEvent.id).Nodup → ev ∈ db.events → ev.status = .PENDING →
      ev.runAt ≤ now - 1800 →
      (∀ e ∈ (process_pending_journeys db now o).1.events, e.id = ev.id →
        e.status = .CANCELLED) ∧
      ev.id ∉ (process_pending_journeys db now o).2) ∧
    (∀ (db : DB) (now : Int) (o : DispatchOracle) (j : Nat),
      (∀ e ∈ db.events, e.id = j → e.status = .CANCELLED) →
      (∀ e ∈ (process_pending_journeys db now o).1.events, e.id = j →
        e.status = .CANCELLED) ∧
      j ∉ (process_pending_journeys db now o).2) := by
  constructor
  · intro db now o ev hnd hmem hpend hstale
    have hcanc : ∀ e' ∈ (staleCancelPass db now).events, e'.id = ev.id →
        e'.status = .CANCELLED := staleCancelPass_sets hnd hmem ⟨hpend, hstale⟩
    have hdue : ∀ e ∈ (staleCancelPass db now).events.filter (fun e =>
        decide (e.status = .PENDING ∧ e.runAt ≤ now)), e.id ≠ ev.id := by
      intro e he hid
      have hm := List.mem_filter.mp he
      have hp : e.status = .PENDING := (of_decide_eq_true hm.2).1
      have := hcanc e hm.1 hid
      rw [hp] at this
      cases this
    obtain ⟨hnt1, hnt2⟩ := dispatchLoop_notouch now o ev.id
      ((staleCancelPass db now).events.filter (fun e =>
        decide (e.status = .PENDING ∧ e.runAt ≤ now))) (staleCancelPass db now) hdue
    constructor
    · intro e he hid
      obtain ⟨e0, he0, hid0, hst0⟩ := hnt1 e (by
        simpa only [process_pending_journeys] using he) hid
      rw [hst0]
      exact hcanc e0 he0 hid0
    · intro hcon
      exact hnt2 (by simpa only [process_pending_journeys] using hcon)
  · intro db now o j hall
    have hcanc : ∀ e' ∈ (staleCancelPass db now).events, e'.id = j →
        e'.status = .CANCELLED := staleCancelPass_cancelled hall
    have hdue : ∀ e ∈ (staleCancelPass db now).events.filter (fun e =>
        decide (e.status = .PENDING ∧ e.runAt ≤ now)), e.id ≠ j := by
      intro e he hid
      have hm := List.mem_filter.mp he
      have hp : e.status = .PENDING := (of_decide_eq_true hm.2).1
      have := hcanc e hm.1 hid
      rw [hp] at this
      cases this
    obtain ⟨hnt1, hnt2⟩ := dispatchLoop_notouch now o j
      ((staleCancelPass db now).events.filter (fun e =>
        decide (e.status = .PENDING ∧ e.runAt ≤ now))) (staleCancelPass db now) hdue
    constructor
    · intro e he hid
      obtain ⟨e0, he0, hid0, hst0⟩ := hnt1 e (by
        simpa only [process_pending_journeys] using he) hid
      rw [hst0]
      exact hcanc e0 he0 hid0
    · intro hcon
      exact hnt2 (by simpa only [process_pending_journeys] using hcon)

/-- Witness for C5: the stale event of `cdb5` ends CANCELLED and is not
dispatched. -/
theorem c5_witness :
    ((process_pending_journeys cdb5 3600 cOracle).1.events.all
      (fun e => decide (e.id = cEvent5.id → e.status = .CANCELLED))) = true ∧
    cEvent5.id ∉ (process_pending_journeys cdb5 3600 cOracle).2 :=
  ⟨by decide,
   (c5_stale_never_dispatched.1 cdb5 3600 cOracle cEvent5 (by decide) (by decide) rfl
     (by decide)).2⟩

/-!  ## C6 — eligibility re-check at dispatch time -/

/-- C6 counterexample: the spec claims a due PENDING event whose stay is
not IN_HOUSE is CANCELLED at dispatch time.  In `cdb6` the event is due
and fresh, its stay's derived state is PRE_STAY and the guest has not
opted out — and after the cycle the event is still PENDING (the code
keeps it to retry later), not CANCELLED; nothing was sent. -/
theorem c6_counterexample :
    cEvent6 ∈ cdb6.events ∧ cEvent6.status = .PENDING ∧
    cEvent6.runAt ≤ 1000 ∧ 1000 - 1800 < cEvent6.runAt ∧
    cdb6.stays.find? (fun s => decide (s.id = cEvent6.stayId)) = some cStay6 ∧
    determine_state (some cStay6) 1000 ≠ .IN_HOUSE ∧
    cStay6.whatsappOptIn = true ∧
    (process_pending_journeys cdb6 1000 cOracle).1.events.find?
      (fun e => decide (e.id = cEvent6.id)) = some cEvent6 ∧
    (process_pending_journeys cdb6 1000 cOracle).2 = [] := by
  refine ⟨by decide, rfl, by decide, by decide, by decide, by decide, rfl, ?_, ?_⟩
  · decide
  · decide

/-- C6 amended: at dispatch time, for a due fresh PENDING event: a missing
stay row cancels the event; a stay whose derived state is not IN_HOUSE
leaves the event PENDING (skipped, to be retried until the staleness pass
cancels it); an IN_HOUSE stay whose guest opted out cancels the event.
In none of these cases is a send attempted. -/
theorem c6_eligibility_recheck (db : DB) (now : Int) (o : DispatchOracle)
    (ev : JourneyEvent) (hnd : (db.events.map JourneyEvent.id).Nodup)
    (hmem : ev ∈ db.events) (hpend : ev.status = .PENDING)
    (hdue : ev.runAt ≤ now) (hfresh : now - 1800 < ev.runAt) :
    (db.stays.find? (fun s => decide (s.id = ev.stayId)) = none →
      (∀ e ∈ (process_pending_journeys db now o).1.events, e.id = ev.id →
        e.status = .CANCELLED) ∧ ev.id ∉ (process_pending_journeys db now o).2) ∧
    (∀ stay, db.stays.find? (fun s => decide (s.id = ev.stayId)) = some stay →
      determine_state (some stay) now ≠ .IN_HOUSE →
      (∀ e ∈ (process_pending_journeys db now o).1.events, e.id = ev.id →
        e.status = .PENDING) ∧ ev.id ∉ (process_pending_journeys db now o).2) ∧
    (∀ stay, db.stays.find? (fun s => decide (s.id = ev.stayId)) = some stay →
      determine_state (some stay) now = .IN_HOUSE → stay.whatsappOptIn = false →
      (∀ e ∈ (process_pending_journeys db now o).1.events, e.id = ev.id →
        e.status = .CANCELLED) ∧ ev.id ∉ (process_pending_journeys db now o).2) := by
  have hnotstale : ¬ (ev.status = .PENDING ∧ ev.runAt ≤ now - 1800) := by
    rintro ⟨_, hle⟩
    omega
  have hkeep : ev ∈ (staleCancelPass db now).events := staleCancelPass_keeps hmem hnotstale
  have hmemdue : ev ∈ (staleCancelPass db now).events.filter (fun e =>
      decide (e.status = .PENDING ∧ e.runAt ≤ now)) :=
    List.mem_filter.mpr ⟨hkeep, by simp [hpend, hdue]⟩
  have hnd1 : ((staleCancelPass db now).events.map JourneyEvent.id).Nodup := by
    rw [staleCancelPass_ids]
    exact hnd
  have hnddue : (((staleCancelPass db now).events.filter (fun e =>
      decide (e.status = .PENDING ∧ e.runAt ≤ now))).map JourneyEvent.id).Nodup :=
    ((List.filter_sublist _).map JourneyEvent.id).nodup hnd1
  obtain ⟨dbPre, hs, hg, hpi, hpre, hfin, hsent⟩ :=
    dispatchLoop_at now o ev _ (staleCancelPass db now) hmemdue hnddue
  have hstays : dbPre.stays = db.stays := hs
  have hpre_pending : ∀ e' ∈ dbPre.events, e'.id = ev.id → e'.status = .PENDING := by
    intro e' he' hid
    obtain ⟨e0, he0, hid0, hst0⟩ := hpre e' he' hid
    have : e0 = ev := staleCancelPass_unchanged_at hnd hmem hnotstale e0 he0 hid0
    rw [hst0, this, hpend]
  refine ⟨?_, ?_, ?_⟩
  · intro hstayn
    have heq : processEvent now o dbPre ev = (setEventStatus dbPre ev.id .CANCELLED, false) := by
      have : dbPre.stays.find? (fun s => decide (s.id = ev.stayId)) = none := by
        rw [hstays, hstayn]
      simp [processEvent, this]
    constructor
    · intro e he hid
      obtain ⟨e'', he'', hid'', hst''⟩ := hfin e (by
        simpa only [process_pending_journeys] using he) hid
      rw [hst'']
      rw [heq] at he''
      exact setEventStatus_sets e'' he'' hid''
    · intro hcon
      exact hsent (by rw [heq]) (by simpa only [process_pending_journeys] using hcon)
  · intro stay hstay hstate
    have heq : processEvent now o dbPre ev = (dbPre, false) := by
      have hf : dbPre.stays.find? (fun s => decide (s.id = ev.stayId)) = some stay := by
        rw [hstays, hstay]
      simp [processEvent, hf, hstate]
    constructor
    · intro e he hid
      obtain ⟨e'', he'', hid'', hst''⟩ := hfin e (by
        simpa only [process_pending_journeys] using he) hid
      rw [heq] at he''
      rw [hst'']
      exact hpre_pending e'' he'' hid''
    · intro hcon
      exact hsent (by rw [heq]) (by simpa only [process_pending_journeys] using hcon)
  · intro stay hstay hstate hopt
    have heq : processEvent now o dbPre ev = (setEventStatus dbPre ev.id .CANCELLED, false) := by
      have hf : dbPre.stays.find? (fun s => decide (s.id = ev.stayId)) = some stay := by
        rw [hstays, hstay]
      simp [processEvent, hf, hstate, hopt]
    constructor
    · intro e he hid
      obtain ⟨e'', he'', hid'', hst''⟩ := hfin e (by
        simpa only [process_pending_journeys] using he) hid
      rw [hst'']
      rw [heq] at he''
      exact setEventStatus_sets e'' he'' hid''
    · intro hcon
      exact hsent (by rw [heq]) (by simpa only [process_pending_journeys] using hcon)

/-- Witness for C6 (amended): on `cdb6b` the stay is IN_HOUSE but opted
out, and the due fresh PENDING event ends CANCELLED without a send; on
`cdb6` (state PRE_STAY) the event stays PENDING. -/
theorem c6_witness :
    ((process_pending_journeys cdb6b 1000 cOracle).1.events.all
      (fun e => decide (e.id = cEvent6.id → e.status = .CANCELLED))) = true ∧
    cEvent6.id ∉ (process_pending_journeys cdb6b 1000 cOracle).2 ∧
    cEvent6.id ∉ (process_pending_journeys cdb6 1000 cOracle).2 :=
  ⟨by decide,
   ((c6_eligibility_recheck cdb6b 1000 cOracle cEvent6 (by decide) (by decide) rfl
      (by decide) (by decide)).2.2 cStay6b (by decide) (by decide) rfl).2,
   ((c6_eligibility_recheck cdb6 1000 cOracle cEvent6 (by decide) (by decide) rfl
      (by decide) (by decide)).2.1 cStay6 (by decide) (by decide)).2⟩

/-!  ## C4 — global guest discovery -/

theorem newerCheckin_irrefl (a : Option Int) : newerCheckin a a = false := by
  rcases a with _ | a <;> simp [newerCheckin]

theorem newerCheckin_le_trans {a b c : Option Int} (h1 : newerCheckin a b = false)
    (h2 : newerCheckin b c = false) : newerCheckin a c = false := by
  rcases a with _ | a <;> rcases b with _ | b <;> rcases c with _ | c <;>
    (simp [newerCheckin] at *; try omega)

theorem newerCheckin_lt_le {a b c : Option Int} (h1 : newerCheckin a b = true)
    (h2 : newerCheckin a c = false) : newerCheckin b c = false := by
  rcases a with _ | a <;> rcases b with _ | b <;> rcases c with _ | c <;>
    (simp [newerCheckin] at *; try omega)

theorem pickFold_aux (rest : List (Guest × Hotel × Stay)) :
    ∀ b : Guest × Hotel × Stay,
      ∃ t, rest.foldl (fun acc t =>
          match acc with
          | none => some t
          | some best =>
            if newerCheckin t.2.2.checkinDate best.2.2.checkinDate then some t
            else some best) (some b) = some t ∧
        (t ∈ rest ∨ t = b) ∧
        newerCheckin b.2.2.checkinDate t.2.2.checkinDate = false ∧
        ∀ x ∈ rest, newerCheckin x.2.2.checkinDate t.2.2.checkinDate = false := by
  induction rest with
  | nil =>
    intro b
    exact ⟨b, rfl, Or.inr rfl, newerCheckin_irrefl _, by simp⟩
  | cons x rest ih =>
    intro b
    by_cases hc : newerCheckin x.2.2.checkinDate b.2.2.checkinDate = true
    · obtain ⟨t, hfold, hmem, hacc, hall⟩ := ih x
      refine ⟨t, ?_, ?_, ?_, ?_⟩
      · rw [List.foldl_cons]
        simpa [hc] using hfold
      · rcases hmem with h | h
        · exact Or.inl (List.mem_cons_of_mem _ h)
        · exact Or.inl (h ▸ List.mem_cons_self x rest)
      · exact newerCheckin_lt_le hc hacc
      · intro y hy
        rcases List.mem_cons.mp hy with h | h
        · rw [h]; exact hacc
        · exact hall y h
    · have hc' : newerCheckin x.2.2.checkinDate b.2.2.checkinDate = false := by
        simpa using hc
      obtain ⟨t, hfold, hmem, hacc, hall⟩ := ih b
      refine ⟨t, ?_, ?_, hacc, ?_⟩
      · rw [List.foldl_cons]
        simpa [hc'] using hfold
      · rcases hmem with h | h
        · exact Or.inl (List.mem_cons_of_mem _ h)
        · exact Or.inr h
      · intro y hy
        rcases List.mem_cons.mp hy with h | h
        · rw [h]; exact newerCheckin_le_trans hc' hacc
        · exact hall y h

theorem pickMostRecent_spec {l : List (Guest × Hotel × Stay)} (hne : l ≠ []) :
    ∃ t, pickMostRecent l = some t ∧ t ∈ l ∧
      ∀ t' ∈ l, newerCheckin t'.2.2.checkinDate t.2.2.checkinDate = false := by
  cases l with
  | nil => exact absurd rfl hne
  | cons x rest =>
    obtain ⟨t, hfold, hmem, hacc, hall⟩ := pickFold_aux rest x
    refine ⟨t, ?_, ?_, ?_⟩
    · simpa [pickMostRecent] using hfold
    · rcases hmem with h | h
      · exact List.mem_cons_of_mem _ h
      · exact h ▸ List.mem_cons_self x rest
    · intro t' ht'
      rcases List.mem_cons.mp ht' with h | h
      · rw [h]; exact hacc
      · exact hall t' h

theorem mem_globalCandidates {db : DB} {hashes : List String} {t : Guest × Hotel × Stay} :
    t ∈ globalCandidates db hashes ↔
      t.1 ∈ db.guests ∧ t.2.1 ∈ db.hotels ∧ t.2.2 ∈ db.stays ∧
      t.1.hotelId = t.2.1.id ∧ t.2.2.guestId = t.1.id ∧
      t.1.phoneHash ∈ hashes ∧ t.2.2.status = some .IN_HOUSE := by
  simp only [globalCandidates, List.mem_flatMap, List.mem_filterMap]
  constructor
  · rintro ⟨g, hg, h, hh, s, hs, hif⟩
    split_ifs at hif with hcond
    obtain ⟨h1, h2, h3, h4⟩ := hcond
    cases hif
    exact ⟨hg, hh, hs, h1, h2, h3, h4⟩
  · rintro ⟨hg, hh, hs, h1, h2, h3, h4⟩
    exact ⟨t.1, hg, t.2.1, hh, t.2.2, hs, by rw [if_pos ⟨h1, h2, h3, h4⟩]⟩

theorem find_guest_globally_none {db : DB} {hashes : List String}
    (hcand : globalCandidates db hashes = []) :
    _find_guest_globally db hashes = none := by
  unfold _find_guest_globally
  split_ifs with h
  · rfl
  · rw [hcand]
    rfl

/-- C4: when no tenant hint (or the default tenant) is given and some
guest in any tenant matches a variant hash and has an IN_HOUSE stay,
resolution returns that (guest, hotel, stay) join row with the most recent
check-in, adopting the matched tenant and leaving the store untouched;
only when no such match exists anywhere does resolution fall back to the
hinted-or-default tenant. -/
theorem c4_global_discovery (db : DB) (waId : String) (hotelId? : Option Nat) (now : Int)
    (hhint : hotelId? = none ∨ hotelId? = some default_hotel_id) :
    (globalCandidates db ((phone_variants waId).map sha256_hexdigest) ≠ [] →
      ∃ g h s, resolve_identity db waId hotelId? now =
          (db, some { hotel := h, guest := g, stay := some s,
                      state := determine_state (some s) now }) ∧
        (g, h, s) ∈ globalCandidates db ((phone_variants waId).map sha256_hexdigest) ∧
        h.id = g.hotelId ∧ s.guestId = g.id ∧ s.status = some .IN_HOUSE ∧
        (∀ t ∈ globalCandidates db ((phone_variants waId).map sha256_hexdigest),
          newerCheckin t.2.2.checkinDate s.checkinDate = false)) ∧
    (globalCandidates db ((phone_variants waId).map sha256_hexdigest) = [] →
      ∀ ctx, (resolve_identity db waId hotelId? now).2 = some ctx →
        ctx.hotel.id = pyOrDefaultHotel hotelId?) := by
  constructor
  · intro hne
    have hhe : ¬ ((phone_variants waId).map sha256_hexdigest = []) := by
      intro hcon
      apply hne
      apply List.eq_nil_iff_forall_not_mem.mpr
      intro t ht
      have := (mem_globalCandidates.mp ht).2.2.2.2.2.1
      rw [hcon] at this
      simp at this
    obtain ⟨t, hpick, hmem, hmax⟩ := pickMostRecent_spec hne
    have hfg : _find_guest_globally db ((phone_variants waId).map sha256_hexdigest) =
        some t := by
      unfold _find_guest_globally
      rw [if_neg hhe]
      exact hpick
    obtain ⟨hg, hh, hs, h1, h2, h3, h4⟩ := mem_globalCandidates.mp hmem
    refine ⟨t.1, t.2.1, t.2.2, ?_, hmem, h1.symm, h2, h4, hmax⟩
    simp only [resolve_identity]
    rw [if_pos hhint, hfg]
  · intro hcand ctx hctx
    have hfg : _find_guest_globally db ((phone_variants waId).map sha256_hexdigest) =
        none := find_guest_globally_none hcand
    simp only [resolve_identity] at hctx
    rw [if_pos hhint, hfg] at hctx
    cases hhotel : _ensure_hotel db (pyOrDefaultHotel hotelId?) with
    | none =>
      rw [hhotel] at hctx
      simp at hctx
    | some hotel =>
      rw [hhotel] at hctx
      simp only [Option.some_inj] at hctx
      have hh2 : db.hotels.find? (fun h => decide (h.id = pyOrDefaultHotel hotelId?)) =
          some hotel := hhotel
      have hid := List.find?_some hh2
      rw [← hctx]
      exact of_decide_eq_true hid

/-- Witness for C4: with two tenants sharing the phone-hash variants and
two IN_HOUSE stays, the tenant whose stay checked in most recently
(tenant 2, check-in 200) is adopted. -/
theorem c4_witness :
    (∃ g h s, resolve_identity cdb4 "40721000111" none 0 =
        (cdb4, some { hotel := h, guest := g, stay := some s,
                      state := determine_state (some s) 0 }) ∧
      (g, h, s) ∈ globalCandidates cdb4 ((phone_variants "40721000111").map sha256_hexdigest) ∧
      h.id = g.hotelId ∧ s.guestId = g.id ∧ s.status = some .IN_HOUSE ∧
      (∀ t ∈ globalCandidates cdb4 ((phone_variants "40721000111").map sha256_hexdigest),
        newerCheckin t.2.2.checkinDate s.checkinDate = false)) ∧
    (resolve_identity cdb4 "40721000111" none 0).2.map (fun ctx => ctx.hotel.id) = some 2 :=
  ⟨(c4_global_discovery cdb4 "40721000111" none 0 (Or.inl rfl)).1 (by decide), by decide⟩

/-!  ## C8 — room-link token validation against the wrong registry -/

/-- C8: evaluation of `_handle_whatsapp_room_linking` at the failing
input.  The message carries tenant id 2, which has a registered token
registry not containing the supplied token `dead` — yet the handler
validates against the *conversation's* hotel (tenant 1, empty registry,
so validation is skipped), creates a room under tenant 2 and links the
conversation to it.  The message is not rejected and state is mutated,
contradicting the claim and spec section 7 ("no state mutation occurs"). -/
theorem c8_token_bypass :
    cHotelTok ∈ cdb8.hotels ∧ cHotelTok.id = 2 ∧ cHotelTok.qrTokens ≠ [] ∧
    cParsed8.hotelIdInText = some 2 ∧ cParsed8.tokenInText = some "dead" ∧
    "dead" ∉ cHotelTok.qrTokens ∧
    (_handle_whatsapp_room_linking cdb8 cConv8 cParsed8 100).2 = true ∧
    (_handle_whatsapp_room_linking cdb8 cConv8 cParsed8 100).1.rooms =
      [{ id := 1, hotelId := 2, roomNumber := "5", isActive := true }] ∧
    ((_handle_whatsapp_room_linking cdb8 cConv8 cParsed8 100).1.conversations.map
      (fun c => c.roomId)) = [some 1] := by
  decide


/-!  ## PMS check-in lemmas (C1, C2) -/

theorem get_guest_found {db : DB} {h : Nat} {phone : String} {g : Guest}
    (hf : db.guests.find? (fun g => decide (g.hotelId = h ∧
      g.phoneHash = _hash_phone phone)) = some g) :
    _get_or_create_guest db h phone = (db, g) := by
  simp only [_get_or_create_guest]
  rw [hf]

theorem get_guest_new {db : DB} {h : Nat} {phone : String}
    (hf : db.guests.find? (fun g => decide (g.hotelId = h ∧
      g.phoneHash = _hash_phone phone)) = none) :
    _get_or_create_guest db h phone =
      ({ db with
          guests := db.guests ++ [⟨db.nextGuestId, h, _hash_phone phone, none⟩],
          nextGuestId := db.nextGuestId + 1 },
       ⟨db.nextGuestId, h, _hash_phone phone, none⟩) := by
  simp only [_get_or_create_guest]
  rw [hf]

theorem upsert_pii_changes (db : DB) (guest : Guest) (name phone : String)
    (email : Option String) :
    ∃ piis2, _upsert_guest_pii db guest name phone email = { db with piis := piis2 } := by
  unfold _upsert_guest_pii
  cases db.piis.find? (fun p => decide (p.guestId = guest.id)) with
  | none => exact ⟨_, rfl⟩
  | some pii => exact ⟨_, rfl⟩

theorem guestSteps_eq_found_pos {db : DB} {h : Nat} {r : PMSReservation} {g0 : Guest}
    {p2 : List GuestPII}
    (hf : db.guests.find? (fun g => decide (g.hotelId = h ∧
      g.phoneHash = _hash_phone r.guestPhone)) = some g0)
    (hp : _upsert_guest_pii db g0 r.guestName r.guestPhone r.guestEmail = { db with piis := p2 })
    (hl : strTruthy r.preferredLanguage = true ∧ ¬ strTruthy g0.preferredLanguage = true) :
    checkinGuestSteps db h r =
      ({ db with
          guests := db.guests.map (fun g => if g.id = g0.id then
            { g with preferredLanguage := r.preferredLanguage } else g),
          piis := p2 }, g0) := by
  simp only [checkinGuestSteps, get_guest_found hf, hp]
  rw [if_pos hl]

theorem guestSteps_eq_found_neg {db : DB} {h : Nat} {r : PMSReservation} {g0 : Guest}
    {p2 : List GuestPII}
    (hf : db.guests.find? (fun g => decide (g.hotelId = h ∧
      g.phoneHash = _hash_phone r.guestPhone)) = some g0)
    (hp : _upsert_guest_pii db g0 r.guestName r.guestPhone r.guestEmail = { db with piis := p2 })
    (hl : ¬ (strTruthy r.preferredLanguage = true ∧ ¬ strTruthy g0.preferredLanguage = true)) :
    checkinGuestSteps db h r = ({ db with piis := p2 }, g0) := by
  simp only [checkinGuestSteps, get_guest_found hf, hp]
  rw [if_neg hl]

theorem guestSteps_eq_new_pos {db : DB} {h : Nat} {r : PMSReservation} {p2 : List GuestPII}
    (hf : db.guests.find? (fun g => decide (g.hotelId = h ∧
      g.phoneHash = _hash_phone r.guestPhone)) = none)
    (hp : _upsert_guest_pii
        { db with
            guests := db.guests ++ [⟨db.nextGuestId, h, _hash_phone r.guestPhone, none⟩],
            nextGuestId := db.nextGuestId + 1 }
        ⟨db.nextGuestId, h, _hash_phone r.guestPhone, none⟩
        r.guestName r.guestPhone r.guestEmail =
      { db with
          guests := db.guests ++ [⟨db.nextGuestId, h, _hash_phone r.guestPhone, none⟩],
          piis := p2, nextGuestId := db.nextGuestId + 1 })
    (hl : strTruthy r.preferredLanguage = true) :
    checkinGuestSteps db h r =
      ({ db with
          guests := List.map
            (fun g : Guest => if g.id = db.nextGuestId then
              { g with preferredLanguage := r.preferredLanguage } else g)
            (db.guests ++ [(⟨db.nextGuestId, h, _hash_phone r.guestPhone, none⟩ : Guest)]),
          piis := p2, nextGuestId := db.nextGuestId + 1 },
       ⟨db.nextGuestId, h, _hash_phone r.guestPhone, none⟩) := by
  have hcond : strTruthy r.preferredLanguage = true ∧
      ¬ strTruthy (none : Option String) = true := ⟨hl, by simp [strTruthy]⟩
  simp only [checkinGuestSteps, get_guest_new hf, hp]
  rw [if_pos hcond]

theorem guestSteps_eq_new_neg {db : DB} {h : Nat} {r : PMSReservation} {p2 : List GuestPII}
    (hf : db.guests.find? (fun g => decide (g.hotelId = h ∧
      g.phoneHash = _hash_phone r.guestPhone)) = none)
    (hp : _upsert_guest_pii
        { db with
            guests := db.guests ++ [⟨db.nextGuestId, h, _hash_phone r.guestPhone, none⟩],
            nextGuestId := db.nextGuestId + 1 }
        ⟨db.nextGuestId, h, _hash_phone r.guestPhone, none⟩
        r.guestName r.guestPhone r.guestEmail =
      { db with
          guests := db.guests ++ [⟨db.nextGuestId, h, _hash_phone r.guestPhone, none⟩],
          piis := p2, nextGuestId := db.nextGuestId + 1 })
    (hl : ¬ strTruthy r.preferredLanguage = true) :
    checkinGuestSteps db h r =
      ({ db with
          guests := db.guests ++ [⟨db.nextGuestId, h, _hash_phone r.guestPhone, none⟩],
          piis := p2, nextGuestId := db.nextGuestId + 1 },
       ⟨db.nextGuestId, h, _hash_phone r.guestPhone, none⟩) := by
  have hcond : ¬ (strTruthy r.preferredLanguage = true ∧
      ¬ strTruthy (none : Option String) = true) := fun hc => hl hc.1
  simp only [checkinGuestSteps, get_guest_new hf, hp]
  rw [if_neg hcond]


theorem guestSteps_found {db : DB} {h : Nat} {r : PMSReservation} {g0 : Guest}
    (hf : db.guests.find? (fun g => decide (g.hotelId = h ∧
      g.phoneHash = _hash_phone r.guestPhone)) = some g0) :
    (checkinGuestSteps db h r).2 = g0 := by
  show (_get_or_create_guest db h r.guestPhone).2 = g0
  rw [get_guest_found hf]

theorem guestSteps_shape (db : DB) (h : Nat) (r : PMSReservation) :
    ∃ G P n, (checkinGuestSteps db h r).1 =
      { db with guests := G, piis := P, nextGuestId := n } := by
  cases hf : db.guests.find? (fun g => decide (g.hotelId = h ∧
      g.phoneHash = _hash_phone r.guestPhone)) with
  | some g0 =>
    obtain ⟨p2, hp⟩ := upsert_pii_changes db g0 r.guestName r.guestPhone r.guestEmail
    by_cases hl : strTruthy r.preferredLanguage = true ∧
        ¬ strTruthy g0.preferredLanguage = true
    · rw [guestSteps_eq_found_pos hf hp hl]
      exact ⟨_, _, _, rfl⟩
    · rw [guestSteps_eq_found_neg hf hp hl]
      exact ⟨_, _, _, rfl⟩
  | none =>
    obtain ⟨p2, hp⟩ := upsert_pii_changes
      { db with
          guests := db.guests ++ [⟨db.nextGuestId, h, _hash_phone r.guestPhone, none⟩],
          nextGuestId := db.nextGuestId + 1 }
      ⟨db.nextGuestId, h, _hash_phone r.guestPhone, none⟩
      r.guestName r.guestPhone r.guestEmail
    by_cases hl : strTruthy r.preferredLanguage = true
    · rw [guestSteps_eq_new_pos hf hp hl]
      exact ⟨_, _, _, rfl⟩
    · rw [guestSteps_eq_new_neg hf hp hl]
      exact ⟨_, _, _, rfl⟩

theorem guestSteps_find_stable (db : DB) (h : Nat) (r : PMSReservation) :
    ∃ g2, (checkinGuestSteps db h r).1.guests.find? (fun g => decide (g.hotelId = h ∧
        g.phoneHash = _hash_phone r.guestPhone)) = some g2 ∧
      g2.id = (checkinGuestSteps db h r).2.id := by
  cases hf : db.guests.find? (fun g => decide (g.hotelId = h ∧
      g.phoneHash = _hash_phone r.guestPhone)) with
  | some g0 =>
    obtain ⟨p2, hp⟩ := upsert_pii_changes db g0 r.guestName r.guestPhone r.guestEmail
    by_cases hl : strTruthy r.preferredLanguage = true ∧
        ¬ strTruthy g0.preferredLanguage = true
    · have hg : (checkinGuestSteps db h r).1.guests =
          db.guests.map (fun g => if g.id = g0.id then
            { g with preferredLanguage := r.preferredLanguage } else g) := by
        rw [guestSteps_eq_found_pos hf hp hl]
      have hs : (checkinGuestSteps db h r).2 = g0 := guestSteps_found hf
      have hinv : ∀ x : Guest,
          (fun g => decide (g.hotelId = h ∧ g.phoneHash = _hash_phone r.guestPhone))
            ((fun g => if g.id = g0.id then
              { g with preferredLanguage := r.preferredLanguage } else g) x) =
          (fun g => decide (g.hotelId = h ∧ g.phoneHash = _hash_phone r.guestPhone)) x := by
        intro x
        by_cases hx : x.id = g0.id <;> simp [hx]
      refine ⟨(fun g : Guest => if g.id = g0.id then
          { g with preferredLanguage := r.preferredLanguage } else g) g0, ?_, ?_⟩
      · rw [hg, @find?_map_inv Guest db.guests
          (fun g => decide (g.hotelId = h ∧ g.phoneHash = _hash_phone r.guestPhone))
          (fun g => if g.id = g0.id then
            { g with preferredLanguage := r.preferredLanguage } else g) hinv, hf]
        rfl
      · rw [hs]
        simp
    · have hg : (checkinGuestSteps db h r).1.guests = db.guests := by
        rw [guestSteps_eq_found_neg hf hp hl]
      have hs : (checkinGuestSteps db h r).2 = g0 := guestSteps_found hf
      refine ⟨g0, ?_, ?_⟩
      · rw [hg]
        exact hf
      · rw [hs]
  | none =>
    obtain ⟨p2, hp⟩ := upsert_pii_changes
      { db with
          guests := db.guests ++ [⟨db.nextGuestId, h, _hash_phone r.guestPhone, none⟩],
          nextGuestId := db.nextGuestId + 1 }
      ⟨db.nextGuestId, h, _hash_phone r.guestPhone, none⟩
      r.guestName r.guestPhone r.guestEmail
    have hs : (checkinGuestSteps db h r).2 =
        ⟨db.nextGuestId, h, _hash_phone r.guestPhone, none⟩ := by
      show (_get_or_create_guest db h r.guestPhone).2 = _
      rw [get_guest_new hf]
    by_cases hl : strTruthy r.preferredLanguage = true
    · have hg : (checkinGuestSteps db h r).1.guests =
          List.map (fun g : Guest => if g.id = db.nextGuestId then
            { g with preferredLanguage := r.preferredLanguage } else g)
          (db.guests ++ [(⟨db.nextGuestId, h, _hash_phone r.guestPhone, none⟩ : Guest)]) := by
        rw [guestSteps_eq_new_pos hf hp hl]
      have hinv : ∀ x : Guest,
          (fun g => decide (g.hotelId = h ∧ g.phoneHash = _hash_phone r.guestPhone))
            ((fun g => if g.id = db.nextGuestId then
              { g with preferredLanguage := r.preferredLanguage } else g) x) =
          (fun g => decide (g.hotelId = h ∧ g.phoneHash = _hash_phone r.guestPhone)) x := by
        intro x
        by_cases hx : x.id = db.nextGuestId <;> simp [hx]
      have hleft : (db.guests.map (fun g : Guest => if g.id = db.nextGuestId then
          { g with preferredLanguage := r.preferredLanguage } else g)).find?
          (fun g => decide (g.hotelId = h ∧ g.phoneHash = _hash_phone r.guestPhone)) = none := by
        rw [@find?_map_inv Guest db.guests
          (fun g => decide (g.hotelId = h ∧ g.phoneHash = _hash_phone r.guestPhone))
          (fun g => if g.id = db.nextGuestId then
            { g with preferredLanguage := r.preferredLanguage } else g) hinv, hf]
        rfl
      refine ⟨(fun g : Guest => if g.id = db.nextGuestId then
          { g with preferredLanguage := r.preferredLanguage } else g)
          ⟨db.nextGuestId, h, _hash_phone r.guestPhone, none⟩, ?_, ?_⟩
      · rw [hg, List.map_append, find?_append_right hleft]
        simp
      · rw [hs]
        simp
    · have hg : (checkinGuestSteps db h r).1.guests =
          db.guests ++ [(⟨db.nextGuestId, h, _hash_phone r.guestPhone, none⟩ : Guest)] := by
        rw [guestSteps_eq_new_neg hf hp hl]
      refine ⟨⟨db.nextGuestId, h, _hash_phone r.guestPhone, none⟩, ?_, ?_⟩
      · rw [hg, find?_append_right hf]
        simp
      · rw [hs]

theorem room_shape (db : DB) (h : Nat) (rn? : Option String) :
    ∃ rooms2 n2 rid,
      _get_or_create_room db h rn? = ({ db with rooms := rooms2, nextRoomId := n2 }, rid) ∧
      ((∀ room ∈ db.rooms, room.id ≠ 0) → db.nextRoomId ≠ 0 →
        ∀ rid0, rid = some rid0 → rid0 ≠ 0) := by
  cases rn? with
  | none =>
    refine ⟨db.rooms, db.nextRoomId, none, rfl, ?_⟩
    intro _ _ rid0 hr
    simp at hr
  | some rn =>
    by_cases he : rn = ""
    · refine ⟨db.rooms, db.nextRoomId, none, ?_, ?_⟩
      · simp only [_get_or_create_room]
        rw [if_pos he]
      · intro _ _ rid0 hr
        simp at hr
    · cases hf : db.rooms.find? (fun rm => decide (rm.hotelId = h ∧ rm.roomNumber = rn)) with
      | some rm =>
        refine ⟨db.rooms, db.nextRoomId, some rm.id, ?_, ?_⟩
        · simp only [_get_or_create_room]
          rw [if_neg he, hf]
        · intro hz _ rid0 hr
          have hh := Option.some.inj hr
          rw [← hh]
          exact hz rm (List.mem_of_find?_eq_some hf)
      | none =>
        refine ⟨db.rooms ++ [⟨db.nextRoomId, h, rn, true⟩], db.nextRoomId + 1,
          some db.nextRoomId, ?_, ?_⟩
        · simp only [_get_or_create_room]
          rw [if_neg he, hf]
        · intro _ hnz rid0 hr
          have hh := Option.some.inj hr
          rw [← hh]
          exact hnz

theorem close_spec (db : DB) (gid : Nat) (rid? : Option Nat) :
    ∃ F : Stay → Stay,
      _close_previous_stays db gid rid? = { db with stays := db.stays.map F } ∧
      (∀ s, (F s).id = s.id ∧ (F s).hotelId = s.hotelId ∧ (F s).guestId = s.guestId ∧
        (F s).roomId = s.roomId ∧ (F s).pmsReservationId = s.pmsReservationId) ∧
      (∀ s, (F s).status = s.status ∨ (s.status = some StayStatus.IN_HOUSE ∧
        (F s).status = some StayStatus.POST_STAY)) ∧
      (∀ s, s.guestId = gid → s.status = some StayStatus.IN_HOUSE →
        (F s).status = some StayStatus.POST_STAY) ∧
      (∀ rid0, rid? = some rid0 → rid0 ≠ 0 → ∀ s, s.roomId = some rid0 →
        s.status = some StayStatus.IN_HOUSE → s.guestId ≠ gid →
        (F s).status = some StayStatus.POST_STAY) := by
  cases rid? with
  | none =>
    refine ⟨fun s => if s.guestId = gid ∧ s.status = some StayStatus.IN_HOUSE then
        { s with status := some StayStatus.POST_STAY } else s, rfl, ?_, ?_, ?_, ?_⟩
    · intro s
      by_cases hc : s.guestId = gid ∧ s.status = some StayStatus.IN_HOUSE <;> simp [hc]
    · intro s
      by_cases hc : s.guestId = gid ∧ s.status = some StayStatus.IN_HOUSE
      · exact Or.inr ⟨hc.2, by simp [hc]⟩
      · exact Or.inl (by simp [hc])
    · intro s h1 h2
      have hc : s.guestId = gid ∧ s.status = some StayStatus.IN_HOUSE := ⟨h1, h2⟩
      simp [hc]
    · intro rid0 hr
      exact absurd hr (by simp)
  | some rid0 =>
    by_cases h0 : rid0 = 0
    · subst h0
      refine ⟨fun s => if s.guestId = gid ∧ s.status = some StayStatus.IN_HOUSE then
          { s with status := some StayStatus.POST_STAY } else s, rfl, ?_, ?_, ?_, ?_⟩
      · intro s
        by_cases hc : s.guestId = gid ∧ s.status = some StayStatus.IN_HOUSE <;> simp [hc]
      · intro s
        by_cases hc : s.guestId = gid ∧ s.status = some StayStatus.IN_HOUSE
        · exact Or.inr ⟨hc.2, by simp [hc]⟩
        · exact Or.inl (by simp [hc])
      · intro s h1 h2
        have hc : s.guestId = gid ∧ s.status = some StayStatus.IN_HOUSE := ⟨h1, h2⟩
        simp [hc]
      · intro rid1 hr h1
        exact absurd (Option.some.inj hr).symm h1
    · refine ⟨(fun s => if s.roomId = some rid0 ∧ s.status = some StayStatus.IN_HOUSE ∧
          s.guestId ≠ gid then { s with status := some StayStatus.POST_STAY } else s) ∘
        (fun s => if s.guestId = gid ∧ s.status = some StayStatus.IN_HOUSE then
          { s with status := some StayStatus.POST_STAY } else s), ?_, ?_, ?_, ?_, ?_⟩
      · simp only [_close_previous_stays]
        rw [if_neg h0, List.map_map]
      · intro s
        simp only [Function.comp_apply]
        by_cases h1 : s.guestId = gid ∧ s.status = some StayStatus.IN_HOUSE
        · rw [if_pos h1]
          simp
        · rw [if_neg h1]
          by_cases h2 : s.roomId = some rid0 ∧ s.status = some StayStatus.IN_HOUSE ∧
              s.guestId ≠ gid
          · rw [if_pos h2]
            simp
          · rw [if_neg h2]
            simp
      · intro s
        simp only [Function.comp_apply]
        by_cases h1 : s.guestId = gid ∧ s.status = some StayStatus.IN_HOUSE
        · rw [if_pos h1]
          refine Or.inr ⟨h1.2, ?_⟩
          simp
        · rw [if_neg h1]
          by_cases h2 : s.roomId = some rid0 ∧ s.status = some StayStatus.IN_HOUSE ∧
              s.guestId ≠ gid
          · rw [if_pos h2]
            exact Or.inr ⟨h2.2.1, by simp⟩
          · rw [if_neg h2]
            exact Or.inl rfl
      · intro s hg hin
        simp only [Function.comp_apply]
        have h1 : s.guestId = gid ∧ s.status = some StayStatus.IN_HOUSE := ⟨hg, hin⟩
        rw [if_pos h1]
        simp
      · intro rid1 hr1 hnz s hroom hin hgne
        obtain rfl : rid0 = rid1 := Option.some.inj hr1
        simp only [Function.comp_apply]
        have h1 : ¬ (s.guestId = gid ∧ s.status = some StayStatus.IN_HOUSE) :=
          fun hc => hgne hc.1
        rw [if_neg h1]
        have h2 : s.roomId = some rid0 ∧ s.status = some StayStatus.IN_HOUSE ∧
            s.guestId ≠ gid := ⟨hroom, hin, hgne⟩
        rw [if_pos h2]

theorem stayCreate_spec (db5 : DB) (h gid : Nat) (rid : Option Nat) (r : PMSReservation)
    (now : Int) :
    (checkinStayCreate db5 h gid rid r now).stays =
      db5.stays ++ [{ id := db5.nextStayId, hotelId := h, guestId := gid, roomId := rid,
                      checkinDate := some r.checkinDate, checkoutDate := some r.checkoutDate,
                      status := some StayStatus.IN_HOUSE, whatsappOptIn := true,
                      channel := some "pms", pmsReservationId := some r.reservationId }] ∧
    (checkinStayCreate db5 h gid rid r now).nextStayId = db5.nextStayId + 1 ∧
    (checkinStayCreate db5 h gid rid r now).guests = db5.guests ∧
    ((checkinStayCreate db5 h gid rid r now).events = db5.events ∨
      ∃ ev : JourneyEvent, (checkinStayCreate db5 h gid rid r now).events = db5.events ++ [ev] ∧
        ev.stayId = db5.nextStayId ∧ ev.status = JourneyEventStatus.PENDING) := by
  simp only [checkinStayCreate]
  split
  · exact ⟨rfl, rfl, rfl, Or.inl rfl⟩
  · split
    · exact ⟨rfl, rfl, rfl, Or.inl rfl⟩
    · exact ⟨rfl, rfl, rfl, Or.inr ⟨_, rfl, rfl, rfl⟩⟩


theorem handle_checkin_update (db : DB) (h : Nat) (r : PMSReservation) (now : Int)
    (existing : Stay)
    (hfound : db.stays.find? (fun s => decide (s.hotelId = h ∧
        s.guestId = (checkinGuestSteps db h r).2.id ∧
        s.pmsReservationId = some r.reservationId)) = some existing) :
    (_handle_checkin db h r now).stays = db.stays.map (fun s =>
      if s.id = existing.id then
        { s with status := some StayStatus.IN_HOUSE,
                 roomId := (_get_or_create_room (checkinGuestSteps db h r).1 h r.roomNumber).2,
                 checkinDate := some r.checkinDate, checkoutDate := some r.checkoutDate }
      else s) ∧
    (_handle_checkin db h r now).nextStayId = db.nextStayId ∧
    (_handle_checkin db h r now).events = db.events ∧
    (_handle_checkin db h r now).guests = (checkinGuestSteps db h r).1.guests := by
  obtain ⟨G, P, n, h3⟩ := guestSteps_shape db h r
  obtain ⟨rooms2, n2, rid, h4, h4nz⟩ := room_shape (checkinGuestSteps db h r).1 h r.roomNumber
  have hst4 : (_get_or_create_room (checkinGuestSteps db h r).1 h r.roomNumber).1.stays =
      db.stays := by
    rw [h4]
    show (checkinGuestSteps db h r).1.stays = db.stays
    rw [h3]
  refine ⟨?_, ?_, ?_, ?_⟩ <;>
    simp only [_handle_checkin] <;>
    rw [hst4, hfound] <;>
    rw [h4] <;>
    rw [h3]

theorem handle_checkin_create (db : DB) (h : Nat) (r : PMSReservation) (now : Int)
    (hnone : db.stays.find? (fun s => decide (s.hotelId = h ∧
        s.guestId = (checkinGuestSteps db h r).2.id ∧
        s.pmsReservationId = some r.reservationId)) = none) :
    ∃ F rid,
      (_handle_checkin db h r now).stays = db.stays.map F ++
        [{ id := db.nextStayId, hotelId := h, guestId := (checkinGuestSteps db h r).2.id,
           roomId := rid, checkinDate := some r.checkinDate,
           checkoutDate := some r.checkoutDate, status := some StayStatus.IN_HOUSE,
           whatsappOptIn := true, channel := some "pms",
           pmsReservationId := some r.reservationId }] ∧
      (_handle_checkin db h r now).nextStayId = db.nextStayId + 1 ∧
      (_handle_checkin db h r now).guests = (checkinGuestSteps db h r).1.guests ∧
      ((_handle_checkin db h r now).events = db.events ∨
        ∃ ev : JourneyEvent, (_handle_checkin db h r now).events = db.events ++ [ev] ∧
          ev.stayId = db.nextStayId ∧ ev.status = JourneyEventStatus.PENDING) ∧
      (∀ s, (F s).id = s.id ∧ (F s).hotelId = s.hotelId ∧ (F s).guestId = s.guestId ∧
        (F s).roomId = s.roomId ∧ (F s).pmsReservationId = s.pmsReservationId) ∧
      (∀ s, (F s).status = s.status ∨ (s.status = some StayStatus.IN_HOUSE ∧
        (F s).status = some StayStatus.POST_STAY)) ∧
      (∀ s, s.guestId = (checkinGuestSteps db h r).2.id →
        s.status = some StayStatus.IN_HOUSE → (F s).status = some StayStatus.POST_STAY) ∧
      (∀ rid0, rid = some rid0 → rid0 ≠ 0 → ∀ s, s.roomId = some rid0 →
        s.status = some StayStatus.IN_HOUSE →
        s.guestId ≠ (checkinGuestSteps db h r).2.id →
        (F s).status = some StayStatus.POST_STAY) ∧
      ((∀ rm ∈ db.rooms, rm.id ≠ 0) → db.nextRoomId ≠ 0 →
        ∀ rid0, rid = some rid0 → rid0 ≠ 0) := by
  obtain ⟨G, P, n, h3⟩ := guestSteps_shape db h r
  obtain ⟨rooms2, n2, rid, h4, h4nz⟩ := room_shape (checkinGuestSteps db h r).1 h r.roomNumber
  have hst4 : (_get_or_create_room (checkinGuestSteps db h r).1 h r.roomNumber).1.stays =
      db.stays := by
    rw [h4]
    show (checkinGuestSteps db h r).1.stays = db.stays
    rw [h3]
  have hdb4 : (_get_or_create_room (checkinGuestSteps db h r).1 h r.roomNumber).1 =
      { db with guests := G, piis := P, nextGuestId := n, rooms := rooms2,
                nextRoomId := n2 } := by
    rw [h4, h3]
  have hrid : (_get_or_create_room (checkinGuestSteps db h r).1 h r.roomNumber).2 = rid := by
    rw [h4]
  obtain ⟨F, hc, hfields, hdich, hguestc, hroomc⟩ := close_spec
    { db with guests := G, piis := P, nextGuestId := n, rooms := rooms2, nextRoomId := n2 }
    (checkinGuestSteps db h r).2.id rid
  have hres : _handle_checkin db h r now =
      checkinStayCreate
        { db with guests := G, piis := P, nextGuestId := n, rooms := rooms2,
                  nextRoomId := n2, stays := db.stays.map F }
        h (checkinGuestSteps db h r).2.id rid r now := by
    simp only [_handle_checkin]
    rw [hst4, hnone]
    rw [hdb4, hrid, hc]
  obtain ⟨hsc1, hsc2, hsc3, hsc4⟩ := stayCreate_spec
    { db with guests := G, piis := P, nextGuestId := n, rooms := rooms2,
              nextRoomId := n2, stays := db.stays.map F }
    h (checkinGuestSteps db h r).2.id rid r now
  refine ⟨F, rid, ?_, ?_, ?_, ?_, hfields, hdich, hguestc, hroomc, ?_⟩
  · rw [hres, hsc1]
  · rw [hres, hsc2]
  · rw [hres, hsc3, h3]
  · rcases hsc4 with he | ⟨ev, he1, he2, he3⟩
    · refine Or.inl ?_
      rw [hres]
      exact he
    · refine Or.inr ⟨ev, ?_, he2, he3⟩
      rw [hres]
      exact he1
  · intro hrz hnz0
    apply h4nz
    · rw [h3]
      exact hrz
    · rw [h3]
      exact hnz0


theorem map_self_of_fix {α : Type} {f : α → α} {l : List α} (hfix : ∀ x ∈ l, f x = x) :
    l.map f = l := by
  induction l with
  | nil => rfl
  | cons a t ih =>
    rw [List.map_cons, hfix a (by simp), ih (fun x hx => hfix x (by simp [hx]))]

/-- **C1**: reconciliation check-in handling is idempotent per reservation.
Starting from a well-formed store with no stay for `(h, r.reservationId)`,
processing the same normalized in-house reservation twice leaves exactly one
stay row matching `(h, r.reservationId)`; only one row is inserted in total;
the matching row carries status `IN_HOUSE`, the reservation dates and the room
resolved by the second run (the update path rewrites room and dates instead of
inserting); and at most one PENDING-or-SENT welcome journey event exists for
the created stay. -/
theorem c1_checkin_idempotent (db : DB) (h : Nat) (r : PMSReservation) (t1 t2 : Int)
    (hwf : db.WF)
    (hnew : ∀ s ∈ db.stays, ¬ (s.hotelId = h ∧ s.pmsReservationId = some r.reservationId)) :
    ((_handle_checkin (_handle_checkin db h r t1) h r t2).stays.filter
      (fun s => decide (s.hotelId = h ∧ s.pmsReservationId = some r.reservationId))).length
      = 1 ∧
    (_handle_checkin (_handle_checkin db h r t1) h r t2).stays.length
      = db.stays.length + 1 ∧
    (∀ s ∈ (_handle_checkin (_handle_checkin db h r t1) h r t2).stays,
      s.hotelId = h → s.pmsReservationId = some r.reservationId →
      s.status = some StayStatus.IN_HOUSE ∧ s.checkinDate = some r.checkinDate ∧
      s.checkoutDate = some r.checkoutDate ∧
      s.roomId = (_get_or_create_room
        (checkinGuestSteps (_handle_checkin db h r t1) h r).1 h r.roomNumber).2) ∧
    ((_handle_checkin (_handle_checkin db h r t1) h r t2).events.filter
      (fun e => decide (e.stayId = db.nextStayId ∧
        (e.status = JourneyEventStatus.PENDING ∨
          e.status = JourneyEventStatus.SENT)))).length ≤ 1 := by
  obtain ⟨-, -, -, -, -, -, -, -, -, -, hsid, -, -, -, -, heid, -, -⟩ := hwf
  have hnone1 : db.stays.find? (fun s => decide (s.hotelId = h ∧
      s.guestId = (checkinGuestSteps db h r).2.id ∧
      s.pmsReservationId = some r.reservationId)) = none := by
    rw [List.find?_eq_none]
    intro s hs
    simp only [decide_eq_true_eq]
    rintro ⟨ha, -, hb⟩
    exact hnew s hs ⟨ha, hb⟩
  obtain ⟨F, rid, hst1, hns1, hg1, hev1, hF1, hdich1, hgc1, hrc1, hnz1⟩ :=
    handle_checkin_create db h r t1 hnone1
  obtain ⟨g2, hg2find, hg2id⟩ := guestSteps_find_stable db h r
  have hf2 : (_handle_checkin db h r t1).guests.find? (fun g => decide (g.hotelId = h ∧
      g.phoneHash = _hash_phone r.guestPhone)) = some g2 := by
    rw [hg1]
    exact hg2find
  have hid2 : (checkinGuestSteps (_handle_checkin db h r t1) h r).2.id =
      (checkinGuestSteps db h r).2.id := by
    rw [guestSteps_found hf2]
    exact hg2id
  have hpinv : ∀ s : Stay,
      (fun s => decide (s.hotelId = h ∧ s.guestId = (checkinGuestSteps db h r).2.id ∧
        s.pmsReservationId = some r.reservationId)) (F s) =
      (fun s => decide (s.hotelId = h ∧ s.guestId = (checkinGuestSteps db h r).2.id ∧
        s.pmsReservationId = some r.reservationId)) s := by
    intro s
    obtain ⟨-, hh, hg, -, hp⟩ := hF1 s
    simp [hh, hg, hp]
  have hmapnone : (db.stays.map F).find? (fun s => decide (s.hotelId = h ∧
      s.guestId = (checkinGuestSteps db h r).2.id ∧
      s.pmsReservationId = some r.reservationId)) = none := by
    rw [@find?_map_inv Stay db.stays
      (fun s => decide (s.hotelId = h ∧ s.guestId = (checkinGuestSteps db h r).2.id ∧
        s.pmsReservationId = some r.reservationId)) F hpinv, hnone1]
    rfl
  have hfound2 : (_handle_checkin db h r t1).stays.find? (fun s => decide (s.hotelId = h ∧
      s.guestId = (checkinGuestSteps (_handle_checkin db h r t1) h r).2.id ∧
      s.pmsReservationId = some r.reservationId)) = some
      { id := db.nextStayId, hotelId := h, guestId := (checkinGuestSteps db h r).2.id,
        roomId := rid, checkinDate := some r.checkinDate,
        checkoutDate := some r.checkoutDate, status := some StayStatus.IN_HOUSE,
        whatsappOptIn := true, channel := some "pms",
        pmsReservationId := some r.reservationId } := by
    rw [hid2, hst1, find?_append_right hmapnone]
    simp [List.find?]
  obtain ⟨hst2, hns2, hev2, hg2s⟩ := handle_checkin_update (_handle_checkin db h r t1) h r t2
    { id := db.nextStayId, hotelId := h, guestId := (checkinGuestSteps db h r).2.id,
      roomId := rid, checkinDate := some r.checkinDate,
      checkoutDate := some r.checkoutDate, status := some StayStatus.IN_HOUSE,
      whatsappOptIn := true, channel := some "pms",
      pmsReservationId := some r.reservationId } hfound2
  have hstfin : (_handle_checkin (_handle_checkin db h r t1) h r t2).stays =
      db.stays.map F ++
      [{ id := db.nextStayId, hotelId := h, guestId := (checkinGuestSteps db h r).2.id,
         roomId := (_get_or_create_room (checkinGuestSteps (_handle_checkin db h r t1) h r).1
           h r.roomNumber).2,
         checkinDate := some r.checkinDate, checkoutDate := some r.checkoutDate,
         status := some StayStatus.IN_HOUSE, whatsappOptIn := true, channel := some "pms",
         pmsReservationId := some r.reservationId }] := by
    rw [hst2, hst1, List.map_append]
    congr 1
    · apply map_self_of_fix
      intro x hx
      obtain ⟨s, hs, rfl⟩ := List.mem_map.mp hx
      have hFid : (F s).id = s.id := (hF1 s).1
      have hlt : s.id < db.nextStayId := hsid s hs
      have hne2 : ¬ (F s).id = db.nextStayId := by
        rw [hFid]
        omega
      simp [hne2]
    · simp
  refine ⟨?_, ?_, ?_, ?_⟩
  · rw [hstfin, List.filter_append]
    have hleftnil : (db.stays.map F).filter (fun s => decide (s.hotelId = h ∧
        s.pmsReservationId = some r.reservationId)) = [] := by
      rw [List.filter_eq_nil_iff]
      intro x hx
      obtain ⟨s, hs, rfl⟩ := List.mem_map.mp hx
      obtain ⟨-, hh, -, -, hp⟩ := hF1 s
      simp only [decide_eq_true_eq, hh, hp]
      intro hcon
      exact hnew s hs hcon
    rw [hleftnil]
    simp
  · rw [hstfin]
    simp
  · intro s hsmem hhot hres
    rw [hstfin] at hsmem
    rcases List.mem_append.mp hsmem with hL | hR
    · obtain ⟨s0, hs0, rfl⟩ := List.mem_map.mp hL
      obtain ⟨-, hh, -, -, hp⟩ := hF1 s0
      refine absurd ?_ (hnew s0 hs0)
      constructor
      · rw [← hh]
        exact hhot
      · rw [← hp]
        exact hres
    · obtain rfl := List.mem_singleton.mp hR
      exact ⟨rfl, rfl, rfl, rfl⟩
  · have holdnil : db.events.filter (fun e => decide (e.stayId = db.nextStayId ∧
        (e.status = JourneyEventStatus.PENDING ∨
          e.status = JourneyEventStatus.SENT))) = [] := by
      rw [List.filter_eq_nil_iff]
      intro e he
      have hlt := heid e he
      simp only [decide_eq_true_eq]
      rintro ⟨hstay, -⟩
      omega
    rw [hev2]
    rcases hev1 with h1 | ⟨ev, h1, h2e, h3e⟩
    · rw [h1, holdnil]
      simp
    · rw [h1, List.filter_append, holdnil]
      simpa using List.length_filter_le _ [ev]

theorem c1_witness :
    emptyDB.WF ∧
    (∀ s ∈ emptyDB.stays, ¬ (s.hotelId = 1 ∧
      s.pmsReservationId = some c1r.reservationId)) ∧
    (((_handle_checkin (_handle_checkin emptyDB 1 c1r 0) 1 c1r 5).stays.filter
      (fun s => decide (s.hotelId = 1 ∧ s.pmsReservationId = some c1r.reservationId))).length
      = 1 ∧
    (_handle_checkin (_handle_checkin emptyDB 1 c1r 0) 1 c1r 5).stays.length
      = emptyDB.stays.length + 1 ∧
    (∀ s ∈ (_handle_checkin (_handle_checkin emptyDB 1 c1r 0) 1 c1r 5).stays,
      s.hotelId = 1 → s.pmsReservationId = some c1r.reservationId →
      s.status = some StayStatus.IN_HOUSE ∧ s.checkinDate = some c1r.checkinDate ∧
      s.checkoutDate = some c1r.checkoutDate ∧
      s.roomId = (_get_or_create_room
        (checkinGuestSteps (_handle_checkin emptyDB 1 c1r 0) 1 c1r).1 1 c1r.roomNumber).2) ∧
    ((_handle_checkin (_handle_checkin emptyDB 1 c1r 0) 1 c1r 5).events.filter
      (fun e => decide (e.stayId = emptyDB.nextStayId ∧
        (e.status = JourneyEventStatus.PENDING ∨
          e.status = JourneyEventStatus.SENT)))).length ≤ 1) :=
  ⟨by decide, by decide, c1_checkin_idempotent emptyDB 1 c1r 0 5 (by decide) (by decide)⟩


/-- **C2** counterexample: the update path of `_handle_checkin` does not run
`_close_previous_stays`.  In `c2db` the guest's stay `R1` is IN_HOUSE and stay
`R2` is POST_STAY; re-processing reservation `R2` as in-house finds the
existing row and forces it back to IN_HOUSE without closing `R1`, leaving the
guest with two IN_HOUSE stays, so the claimed invariant is not preserved by
the update path. -/
theorem c2_counterexample :
    inhouseInvariant c2db ∧ ¬ inhouseInvariant (_handle_checkin c2db 1 c2r 0) := by
  decide

/-- **C2** (amended): on the create path (no existing stay for the external
reservation id) `_close_previous_stays` transitions every other IN_HOUSE stay
of the same guest, and every IN_HOUSE stay of a different guest in the
resolved room, to POST_STAY before the new stay is inserted, so a check-in
that creates a new stay preserves the invariant "at most one IN_HOUSE stay
per guest and at most one per room"; the update path, which forces an
existing stay back to IN_HOUSE without closing others, does not preserve it
(see the counterexample). -/
theorem c2_create_preserves_invariant (db : DB) (h : Nat) (r : PMSReservation) (now : Int)
    (hwf : db.WF) (hinv : inhouseInvariant db)
    (hnew : ∀ s ∈ db.stays, ¬ (s.hotelId = h ∧ s.pmsReservationId = some r.reservationId)) :
    inhouseInvariant (_handle_checkin db h r now) ∧
    (∀ s ∈ db.stays, s.status = some StayStatus.IN_HOUSE →
      s.guestId = (checkinGuestSteps db h r).2.id →
      ∃ s2 ∈ (_handle_checkin db h r now).stays, s2.id = s.id ∧
        s2.status = some StayStatus.POST_STAY) := by
  obtain ⟨-, -, -, -, -, -, -, -, -, -, hsid, -, -, -, -, -, hrz, hnz0⟩ := hwf
  have hnone1 : db.stays.find? (fun s => decide (s.hotelId = h ∧
      s.guestId = (checkinGuestSteps db h r).2.id ∧
      s.pmsReservationId = some r.reservationId)) = none := by
    rw [List.find?_eq_none]
    intro s hs
    simp only [decide_eq_true_eq]
    rintro ⟨ha, -, hb⟩
    exact hnew s hs ⟨ha, hb⟩
  obtain ⟨F, rid, hst1, hns1, hg1, hev1, hF1, hdich1, hgc1, hrc1, hnz1⟩ :=
    handle_checkin_create db h r now hnone1
  have hridnz : ∀ rid0, rid = some rid0 → rid0 ≠ 0 := hnz1 hrz hnz0
  constructor
  · intro a ha b hb hne hain hbin
    rw [hst1] at ha hb
    rcases List.mem_append.mp ha with haL | haR
    · rcases List.mem_append.mp hb with hbL | hbR
      · obtain ⟨s1, hs1, rfl⟩ := List.mem_map.mp haL
        obtain ⟨s2, hs2, rfl⟩ := List.mem_map.mp hbL
        have h1in : s1.status = some StayStatus.IN_HOUSE := by
          rcases hdich1 s1 with hd | ⟨hin, -⟩
          · rw [← hd]
            exact hain
          · exact hin
        have h2in : s2.status = some StayStatus.IN_HOUSE := by
          rcases hdich1 s2 with hd | ⟨hin, -⟩
          · rw [← hd]
            exact hbin
          · exact hin
        have hids : s1.id ≠ s2.id := by
          have e1 := (hF1 s1).1
          have e2 := (hF1 s2).1
          rw [e1, e2] at hne
          exact hne
        obtain ⟨hg, hr2⟩ := hinv s1 hs1 s2 hs2 hids h1in h2in
        obtain ⟨-, -, hg1f, hr1f, -⟩ := hF1 s1
        obtain ⟨-, -, hg2f, hr2f, -⟩ := hF1 s2
        constructor
        · rw [hg1f, hg2f]
          exact hg
        · rw [hr1f, hr2f]
          exact hr2
      · obtain ⟨s1, hs1, rfl⟩ := List.mem_map.mp haL
        obtain rfl := List.mem_singleton.mp hbR
        have h1in : s1.status = some StayStatus.IN_HOUSE := by
          rcases hdich1 s1 with hd | ⟨hin, -⟩
          · rw [← hd]
            exact hain
          · exact hin
        obtain ⟨-, -, hg1f, hr1f, -⟩ := hF1 s1
        have hgne : s1.guestId ≠ (checkinGuestSteps db h r).2.id := by
          intro hgeq
          have hpost := hgc1 s1 hgeq h1in
          rw [hpost] at hain
          exact absurd hain (by simp)
        constructor
        · rw [hg1f]
          exact hgne
        · rw [hr1f]
          show s1.roomId = none ∨ s1.roomId ≠ rid
          cases hsr : s1.roomId with
          | none => exact Or.inl rfl
          | some x =>
            refine Or.inr ?_
            cases hr0 : rid with
            | none => simp
            | some rid0 =>
              have hrid0 : rid0 ≠ 0 := hridnz rid0 hr0
              by_cases hx : x = rid0
              · subst hx
                have hpost := hrc1 x hr0 hrid0 s1 hsr h1in hgne
                rw [hpost] at hain
                exact absurd hain (by simp)
              · simp [hx]
    · rcases List.mem_append.mp hb with hbL | hbR
      · obtain rfl := List.mem_singleton.mp haR
        obtain ⟨s2, hs2, rfl⟩ := List.mem_map.mp hbL
        have h2in : s2.status = some StayStatus.IN_HOUSE := by
          rcases hdich1 s2 with hd | ⟨hin, -⟩
          · rw [← hd]
            exact hbin
          · exact hin
        obtain ⟨-, -, hg2f, hr2f, -⟩ := hF1 s2
        have hgne : s2.guestId ≠ (checkinGuestSteps db h r).2.id := by
          intro hgeq
          have hpost := hgc1 s2 hgeq h2in
          rw [hpost] at hbin
          exact absurd hbin (by simp)
        constructor
        · rw [hg2f]
          exact fun hh => hgne hh.symm
        · rw [hr2f]
          show rid = none ∨ rid ≠ s2.roomId
          cases hr0 : rid with
          | none => exact Or.inl rfl
          | some rid0 =>
            refine Or.inr ?_
            have hrid0 : rid0 ≠ 0 := hridnz rid0 hr0
            by_cases hx : s2.roomId = some rid0
            · have hpost := hrc1 rid0 hr0 hrid0 s2 hx h2in hgne
              rw [hpost] at hbin
              exact absurd hbin (by simp)
            · exact fun hh => hx hh.symm
      · obtain rfl := List.mem_singleton.mp haR
        have heq := List.mem_singleton.mp hbR
        subst heq
        exact absurd rfl hne
  · intro s hs hin hgid
    refine ⟨F s, ?_, (hF1 s).1, hgc1 s hgid hin⟩
    rw [hst1]
    exact List.mem_append_left _ (List.mem_map_of_mem F hs)

theorem c2_witness :
    c2wdb.WF ∧ inhouseInvariant c2wdb ∧
    (∀ s ∈ c2wdb.stays, ¬ (s.hotelId = 1 ∧
      s.pmsReservationId = some c2wr.reservationId)) ∧
    (inhouseInvariant (_handle_checkin c2wdb 1 c2wr 0) ∧
    (∀ s ∈ c2wdb.stays, s.status = some StayStatus.IN_HOUSE →
      s.guestId = (checkinGuestSteps c2wdb 1 c2wr).2.id →
      ∃ s2 ∈ (_handle_checkin c2wdb 1 c2wr 0).stays, s2.id = s.id ∧
        s2.status = some StayStatus.POST_STAY)) :=
  ⟨by decide, by decide, by decide,
    c2_create_preserves_invariant c2wdb 1 c2wr 0 (by decide) (by decide) (by decide)⟩

end Hotelbot
